import Mathlib

/-!
Verification development for the logical-plan compiler `relalgFromAst.ts`:
a shallow embedding of the two AST-to-relational-algebra translators
(`relalgFromSQLAstRoot` and `relalgFromRelalgAstNode`) together with the
shared value-expression translator and join-condition normalizer, and
theorems settling the specification claims about them.
-/

/-- Source-position record attached to AST nodes and produced tree nodes.
Modelled from the spec: the concrete shape of `CodeInfo` lives in the
excluded `exec` layer; the translator only stores it verbatim and reads
its `text` field (for inline-relation definitions). -/
structure CodeInfo where
  startLine : Nat := 0
  startColumn : Nat := 0
  endLine : Nat := 0
  endColumn : Nat := 0
  text : String := ""
deriving Repr, DecidableEq

/-- A user-facing diagnostic message: key plus named substitution
parameters.  Modelled from the spec: message resolution (`i18n.t`) to
display text is an external concern; the translator only supplies the
key and the parameters. -/
structure Message where
  key : String
  params : List (String × String) := []
deriving Repr, DecidableEq

/-- Model of `i18n.t(key, params)`: builds the structured message that the
external message-resolution boundary would render. -/
def i18nT (key : String) (params : List (String × String) := []) : Message :=
  ⟨key, params⟩

/-- The two failure kinds of the translator: a user-facing
`ExecutionError` (message + source position) and an internal-consistency
failure (a plain `Error` in the source). -/
inductive TransError where
  | execution (msg : Message) (codeInfo : Option CodeInfo)
  | internal (msg : String)
deriving Repr, DecidableEq

/-- Raw JavaScript literal values appearing in expression-AST argument
positions (constants are copied verbatim by the translator). -/
inductive RawVal where
  | num (n : Int)
  | str (s : String)
  | boolV (b : Bool)
  | nullV
deriving Repr, DecidableEq

/-- Metadata values stored on tree nodes (`setMetaData`): the translator
stores strings and booleans. -/
inductive MetaVal where
  | str (s : String)
  | boolV (b : Bool)
deriving Repr, DecidableEq

/-- The expression datatype discriminator of the expression AST. -/
inductive Datatype where
  | string
  | number
  | boolean
  | date
  | null
deriving Repr, DecidableEq

mutual
/-- Expression AST (`sqlAst.valueExpr` / `relalgAst.valueExpr`): datatype
discriminator, function/operator name, argument list, source position and
parenthesization flag. -/
inductive ValueExprAst where
  | mk (datatype : Datatype) (func : String) (args : List ValueArgAst)
      (codeInfo : CodeInfo) (wrappedInParentheses : Bool)
/-- An argument of an expression-AST node: either a raw literal value
(used by `constant` and `columnValue` nodes) or a nested expression. -/
inductive ValueArgAst where
  | raw (v : RawVal)
  | expr (e : ValueExprAst)
end

mutual
/-- Produced evaluable expression tree (`ValueExpr`): either a column
reference (`ValueExprColumnValue`) or a generic operator application
(`ValueExprGeneric`), each carrying its own position and
parenthesization flag. -/
inductive ValueExpr where
  | columnValue (relAlias : Option ValueArgAst) (name : Option ValueArgAst)
      (codeInfo : Option CodeInfo) (wrappedInParentheses : Bool)
  | generic (datatype : Datatype) (func : String) (args : List ExprArg)
      (codeInfo : Option CodeInfo) (wrappedInParentheses : Bool)
/-- An argument slot of a produced `ValueExprGeneric`: a verbatim raw AST
argument (the `constant` case) or a translated expression node. -/
inductive ExprArg where
  | raw (v : ValueArgAst)
  | node (e : ValueExpr)
end

/-- `ValueExpr.setCodeInfoObject` of the exec layer: stores the given
position on the expression node. -/
def ValueExpr.setCodeInfoObject : ValueExpr → Option CodeInfo → ValueExpr
  | .columnValue r n _ w, ci => .columnValue r n ci w
  | .generic d f a _ w, ci => .generic d f a ci w

/-- `ValueExpr.setWrappedInParentheses` of the exec layer. -/
def ValueExpr.setWrappedInParentheses : ValueExpr → Bool → ValueExpr
  | .columnValue r n ci _, w => .columnValue r n ci w
  | .generic d f a ci _, w => .generic d f a ci w

/-- Accessor for the datatype of an expression AST node. -/
def ValueExprAst.datatype : ValueExprAst → Datatype
  | .mk d _ _ _ _ => d

/-- Accessor for the function name of an expression AST node. -/
def ValueExprAst.func : ValueExprAst → String
  | .mk _ f _ _ _ => f

/-- Accessor for the argument list of an expression AST node. -/
def ValueExprAst.args : ValueExprAst → List ValueArgAst
  | .mk _ _ a _ _ => a

/-- Accessor for the source position of an expression AST node. -/
def ValueExprAst.codeInfo : ValueExprAst → CodeInfo
  | .mk _ _ _ ci _ => ci

/-- Accessor for the parenthesization flag of an expression AST node. -/
def ValueExprAst.wrappedInParentheses : ValueExprAst → Bool
  | .mk _ _ _ _ w => w

/-- The common tail of `recValueExpr`: `node.setCodeInfoObject(n.codeInfo)`
followed by the conditional `setWrappedInParentheses(true)`. -/
def applyExprTail (node : ValueExpr) (ci : CodeInfo) (wrapped : Bool) : ValueExpr :=
  let node := node.setCodeInfoObject (some ci)
  if wrapped = true then node.setWrappedInParentheses true else node

mutual
/-- The value-expression translator `recValueExpr`: a `null`-datatype
`columnValue` node becomes a column reference from its first two
arguments; every other node is a generic application whose arguments are
taken verbatim when the function is `constant` and recursively
translated otherwise. -/
def recValueExpr : ValueExprAst → Except TransError ValueExpr
  | .mk dt func args ci wrapped =>
    if dt = Datatype.null ∧ func = "columnValue" then
      .ok (applyExprTail (ValueExpr.columnValue (args.get? 0) (args.get? 1) none false) ci wrapped)
    else do
      let tmp ← recValueArgs func args
      .ok (applyExprTail (ValueExpr.generic dt func tmp none false) ci wrapped)
termination_by n => sizeOf n

/-- The argument loop of `recValueExpr`. -/
def recValueArgs (func : String) : List ValueArgAst → Except TransError (List ExprArg)
  | [] => .ok []
  | a :: rest => do
    let x ← recValueArg func a
    let xs ← recValueArgs func rest
    .ok (x :: xs)
termination_by l => sizeOf l

/-- One argument of `recValueExpr`: pushed verbatim for `constant`,
recursively translated otherwise (recursing into a raw literal would be
a dynamic type failure in the source, modelled as an internal error). -/
def recValueArg (func : String) : ValueArgAst → Except TransError ExprArg
  | .raw v =>
    if func = "constant" then .ok (.raw (.raw v))
    else .error (.internal "recValueExpr applied to a raw value")
  | .expr e =>
    if func = "constant" then .ok (.raw (.expr e))
    else do
      let v ← recValueExpr e
      .ok (.node v)
termination_by a => sizeOf a
end

/-- Name-plus-relation-alias pair (`Column` of the exec layer, and the
column shape used by GROUP BY / ORDER BY clauses). -/
structure ColumnPair where
  name : String
  relAlias : Option String
deriving Repr, DecidableEq

/-- An aggregate-function SELECT-list entry (`sqlAst.aggFunction` /
`relalgAst.aggFunction`): identified by its AST tag; the translator
reads only its output column `name` and stores the entry verbatim. -/
structure AggFunctionData where
  aggFunction : String
  name : String
deriving Repr, DecidableEq

/-- One entry of a produced `Projection` (`ProjectionColumn`): a plain
column reference or a named expression. -/
inductive ProjArg where
  | col (c : ColumnPair)
  | expr (name : String) (relAlias : Option String) (child : ValueExpr)

/-- One registered renaming of a `RenameColumns` node
(`addRenaming(dst, srcName, srcRelAlias)`). -/
structure Renaming where
  dst : String
  srcName : String
  srcRelAlias : Option String
deriving Repr, DecidableEq

/-- A tagged join condition (`JoinCondition`): natural (optionally
restricted to named columns) or theta (a boolean expression). -/
inductive JoinCondition where
  | natural (restrictToColumns : Option (List String))
  | theta (joinExpression : ValueExpr)

/-- The payload of a base `Relation` tree node: name, schema columns
(name, relation alias, type) and rows.  Modelled from the spec: the
`Relation` class lives in the excluded exec layer; the translator only
copies catalog entries and, for inline tables, synthesizes the schema
from explicit column declarations. -/
structure RelationData where
  name : String
  columns : List (String × Option String × String) := []
  rows : List (List RawVal) := []
deriving Repr, DecidableEq

/-- The shared annotation header of every produced tree node: source
position, parenthesization flag, metadata mapping and warnings list.
Modelled from the spec: these are the `RANode` base-class fields set via
`setCodeInfoObject` / `setWrappedInParentheses` / `setMetaData` /
`addWarning` after construction; a freshly constructed node carries
none of them. -/
structure NodeInfo where
  codeInfo : Option CodeInfo := none
  wrappedInParentheses : Bool := false
  metaData : List (String × MetaVal) := []
  warnings : List (Message × Option CodeInfo) := []

mutual
/-- A produced relational-algebra tree node: annotation header plus
operator. -/
inductive RANode where
  | mk (info : NodeInfo) (op : RAOp)
/-- The operator alternatives of the produced tree. -/
inductive RAOp where
  | relation (data : RelationData)
  | renameRelation (child : RANode) (newRelAlias : String)
  | selection (child : RANode) (condition : ValueExpr)
  | projection (child : RANode) (columns : List ProjArg)
  | orderBy (child : RANode) (cols : List ColumnPair) (asc : List Bool)
  | groupBy (child : RANode) (group : List ColumnPair) (aggregate : List AggFunctionData)
  | renameColumns (child : RANode) (renamings : List Renaming)
  | union (child child2 : RANode)
  | intersect (child child2 : RANode)
  | difference (child child2 : RANode)
  | division (child child2 : RANode)
  | innerJoin (child child2 : RANode) (cond : JoinCondition)
  | crossJoin (child child2 : RANode)
  | leftOuterJoin (child child2 : RANode) (cond : JoinCondition)
  | rightOuterJoin (child child2 : RANode) (cond : JoinCondition)
  | fullOuterJoin (child child2 : RANode) (cond : JoinCondition)
  | semiJoin (child child2 : RANode) (left : Bool)
  | antiJoin (child child2 : RANode)
end

/-- The annotation header of a tree node. -/
def RANode.info : RANode → NodeInfo
  | .mk i _ => i

/-- The operator of a tree node. -/
def RANode.op : RANode → RAOp
  | .mk _ o => o

/-- `RANode.setCodeInfoObject`: stores the given source position. -/
def RANode.setCodeInfoObject : RANode → Option CodeInfo → RANode
  | .mk i o, ci => .mk { i with codeInfo := ci } o

/-- `RANode.setWrappedInParentheses`. -/
def RANode.setWrappedInParentheses : RANode → Bool → RANode
  | .mk i o, w => .mk { i with wrappedInParentheses := w } o

/-- `RANode.addWarning(msg, codeInfo)`: appends to the node's warnings
list. -/
def RANode.addWarning : RANode → Message → Option CodeInfo → RANode
  | .mk i o, msg, ci => .mk { i with warnings := i.warnings ++ [(msg, ci)] } o

/-- JavaScript object-property assignment on the metadata mapping:
overwrite the value in place when the key exists, append otherwise. -/
def setMetaEntry (m : List (String × MetaVal)) (k : String) (v : MetaVal) :
    List (String × MetaVal) :=
  if m.any (fun p => p.1 = k) then m.map (fun p => if p.1 = k then (k, v) else p)
  else m ++ [(k, v)]

/-- `RANode.setMetaData(key, value)`. -/
def RANode.setMetaData : RANode → String → MetaVal → RANode
  | .mk i o, k, v => .mk { i with metaData := setMetaEntry i.metaData k v } o

/-- Looks up a metadata key on a node header's mapping. -/
def lookupMeta (m : List (String × MetaVal)) (k : String) : Option MetaVal :=
  (m.find? (fun p => p.1 = k)).map (fun p => p.2)

/-- The relation catalog as the JavaScript object
`{ [key: string]: Relation }`: an association list whose values may, at
the untyped runtime level, be bound to `undefined` (`none`). -/
abbrev Catalog := List (String × Option RelationData)

/-- Property lookup `relations[name]`: `none` when the key is absent,
otherwise the stored (possibly `undefined`) value. -/
def jsLookup (cat : Catalog) (name : String) : Option (Option RelationData) :=
  (List.find? (fun p => p.1 = name) cat).map (fun p => p.2)

/-- The value the `typeof (relations[n.name]) === 'undefined'` test sees:
absent keys and keys bound to `undefined` both yield `none`. -/
def jsIndexCatalog (cat : Catalog) (name : String) : Option RelationData :=
  (jsLookup cat name).join

/-- `Relation.copy()` on a catalog entry.  Modelled from the spec: an
independent deep duplicate of the base relation, so the produced leaf
owns its data; the copy is a fresh tree node. -/
def copyRelation (d : RelationData) : RANode :=
  .mk {} (.relation d)

/-- The relation-not-found user-facing error
(`db.messages.translate.error-relation-not-found` with the offending
name), raised with the reference's source position. -/
def relationNotFound (name : String) (ci : Option CodeInfo) : TransError :=
  .execution (i18nT "db.messages.translate.error-relation-not-found" [("name", name)]) ci

/-- The missing-DISTINCT advisory message. -/
def distinctWarning : Message :=
  i18nT "db.messages.translate.warning-distinct-missing"

/-- The ignored-ALL-on-set-operators advisory message. -/
def ignoredAllWarning : Message :=
  i18nT "db.messages.translate.warning-ignored-all-on-set-operators"

/-- The raw join-condition alternatives of a join AST node: absent
(`null`), an ordered column-name list, or a boolean expression. -/
inductive JoinCondAst where
  | nullCond
  | columnList (cols : List String)
  | boolExpr (e : ValueExprAst)

/-- The join-condition normalizer `parseJoinCondition`: `null` becomes an
unrestricted natural join, a column list a restricted natural join, and
a boolean expression a theta join over the translated expression. -/
def parseJoinCondition : JoinCondAst → Except TransError JoinCondition
  | .nullCond => .ok (.natural none)
  | .columnList cols => .ok (.natural (some cols))
  | .boolExpr e => do
    let v ← recValueExpr e
    .ok (.theta v)

/-- Common annotation header of a SQL AST node: source position
(runtime-checked before use), parenthesization flag, and the optional
metadata mapping.  The metadata field is modelled from the spec: the
`sqlAst` type declarations are outside the given source, and the spec
states both AST forms optionally carry a metadata mapping. -/
structure SqlNodeMeta where
  codeInfo : Option CodeInfo := none
  wrappedInParentheses : Bool := false
  metaData : Option (List (String × MetaVal)) := none

/-- A WHERE or HAVING clause: its boolean-expression argument and its own
source position. -/
structure SqlClause where
  arg : ValueExprAst
  codeInfo : Option CodeInfo

/-- One SELECT-list entry: a plain (possibly aliased) column, an
aggregate-function call, or a named/computed expression.  The `alias`
field of a column is optional and may be the empty string. -/
inductive SelectArg where
  | column (name : String) (relAlias : Option String) (colAlias : Option String)
  | aggFunction (data : AggFunctionData)
  | namedColumnExpr (name : String) (relAlias : Option String) (child : ValueExprAst)

/-- The SELECT clause: `distinct` flag, projection-argument list, and the
clause's source position. -/
structure SelectClause where
  distinct : Bool
  arg : List SelectArg
  codeInfo : Option CodeInfo

/-- One ORDER BY entry: ascending flag plus ordered column. -/
structure OrderingAst where
  asc : Bool
  col : ColumnPair

mutual
/-- A SQL `statement` AST node: select, from, where, group-by, having
clauses, the declared aggregate-column count, and the node header. -/
inductive SqlStatement where
  | mk (select : SelectClause) (fromClause : SqlAstNode)
      (whereClause : Option SqlClause) (groupBy : Option (List ColumnPair))
      (having : Option SqlClause) (numAggregationColumns : Nat)
      (codeInfo : Option CodeInfo) (wrappedInParentheses : Bool)
      (metaData : Option (List (String × MetaVal)))
/-- A SQL AST node (`sqlAst.astNode`), tagged by its `type`
discriminator. -/
inductive SqlAstNode where
  | relation (name : String) (relAlias : Option String) (md : SqlNodeMeta)
  | statement (stmt : SqlStatement)
  | renameRelation (child : SqlAstNode) (newRelAlias : String) (md : SqlNodeMeta)
  | relationFromSubstatement (statement : SqlAstNode) (relAlias : String) (md : SqlNodeMeta)
  | innerJoin (child child2 : SqlAstNode) (cond : JoinCondAst) (md : SqlNodeMeta)
  | leftOuterJoin (child child2 : SqlAstNode) (cond : JoinCondAst) (md : SqlNodeMeta)
  | rightOuterJoin (child child2 : SqlAstNode) (cond : JoinCondAst) (md : SqlNodeMeta)
  | fullOuterJoin (child child2 : SqlAstNode) (cond : JoinCondAst) (md : SqlNodeMeta)
  | crossJoin (child child2 : SqlAstNode) (md : SqlNodeMeta)
  | naturalJoin (child child2 : SqlAstNode) (md : SqlNodeMeta)
  | union (child child2 : SqlAstNode) (all : Bool) (md : SqlNodeMeta)
  | intersect (child child2 : SqlAstNode) (all : Bool) (md : SqlNodeMeta)
  | exceptOp (child child2 : SqlAstNode) (all : Bool) (md : SqlNodeMeta)
  | orderBy (child : SqlAstNode) (orderings : List OrderingAst) (md : SqlNodeMeta)
  | limit (limit : Int) (offset : Int) (child : SqlAstNode) (md : SqlNodeMeta)
end

/-- The SELECT clause of a statement. -/
def SqlStatement.select : SqlStatement → SelectClause
  | .mk s _ _ _ _ _ _ _ _ => s

/-- The FROM clause of a statement. -/
def SqlStatement.fromClause : SqlStatement → SqlAstNode
  | .mk _ f _ _ _ _ _ _ _ => f

/-- The WHERE clause of a statement. -/
def SqlStatement.whereClause : SqlStatement → Option SqlClause
  | .mk _ _ w _ _ _ _ _ _ => w

/-- The GROUP BY clause of a statement. -/
def SqlStatement.groupBy : SqlStatement → Option (List ColumnPair)
  | .mk _ _ _ g _ _ _ _ _ => g

/-- The HAVING clause of a statement. -/
def SqlStatement.having : SqlStatement → Option SqlClause
  | .mk _ _ _ _ h _ _ _ _ => h

/-- The declared aggregate-column count of a statement. -/
def SqlStatement.numAggregationColumns : SqlStatement → Nat
  | .mk _ _ _ _ _ n _ _ _ => n

/-- The source position of a statement node. -/
def SqlStatement.codeInfo : SqlStatement → Option CodeInfo
  | .mk _ _ _ _ _ _ ci _ _ => ci

/-- The parenthesization flag of a statement node. -/
def SqlStatement.wrappedInParentheses : SqlStatement → Bool
  | .mk _ _ _ _ _ _ _ w _ => w

/-- The optional metadata mapping of a statement node. -/
def SqlStatement.metaData : SqlStatement → Option (List (String × MetaVal))
  | .mk _ _ _ _ _ _ _ _ m => m

/-- The node header of a SQL AST node. -/
def SqlAstNode.meta : SqlAstNode → SqlNodeMeta
  | .relation _ _ md => md
  | .statement stmt => ⟨stmt.codeInfo, stmt.wrappedInParentheses, stmt.metaData⟩
  | .renameRelation _ _ md => md
  | .relationFromSubstatement _ _ md => md
  | .innerJoin _ _ _ md => md
  | .leftOuterJoin _ _ _ md => md
  | .rightOuterJoin _ _ _ md => md
  | .fullOuterJoin _ _ _ md => md
  | .crossJoin _ _ md => md
  | .naturalJoin _ _ md => md
  | .union _ _ _ md => md
  | .intersect _ _ _ md => md
  | .exceptOp _ _ _ md => md
  | .orderBy _ _ md => md
  | .limit _ _ _ md => md

/-- The source position of a SQL AST node. -/
def SqlAstNode.codeInfo (n : SqlAstNode) : Option CodeInfo :=
  n.meta.codeInfo

/-- The parenthesization flag of a SQL AST node. -/
def SqlAstNode.wrappedInParentheses (n : SqlAstNode) : Bool :=
  n.meta.wrappedInParentheses

namespace relalgFromSQLAstRoot

/-- `setCodeInfoFromNode`: copies the AST node's (runtime-checked)
source position onto the produced tree node; a missing position is an
internal-consistency failure. -/
def setCodeInfoFromNode (raNode : RANode) (astCodeInfo : Option CodeInfo) :
    Except TransError RANode :=
  match astCodeInfo with
  | none => .error (.internal "should not happen")
  | some ci => .ok (raNode.setCodeInfoObject (some ci))

/-- `getSelection`: wraps the root in a `Selection` over the translated
condition and stamps the clause's source position on it.  The source
first calls `root.check()`, the exec layer's schema self-validation,
which is outside the compiler's scope and modelled from the spec as
structure-preserving. -/
def getSelection (root : RANode) (condition : ValueExprAst)
    (codeInfo : Option CodeInfo) : Except TransError RANode := do
  let c ← recValueExpr condition
  .ok (RANode.setCodeInfoObject (.mk {} (.selection root c)) codeInfo)

/-- `isNamedColumn`: `arg.type === 'column' && arg.alias` — a column
entry whose alias is truthy, so a missing alias and the empty-string
alias both fail the test. -/
def isNamedColumn : SelectArg → Bool
  | .column _ _ none => false
  | .column _ _ (some a) => a ≠ ""
  | _ => false

/-- The bare-wildcard test of the projection stage: exactly one
SELECT-list entry, of type `column`, named `*`, with no relation
qualifier (the entry's alias is not inspected). -/
def isBareWildcard : List SelectArg → Bool
  | [.column name relAlias _] => name == "*" && relAlias == none
  | _ => false

/-- The WHERE/HAVING stage: if the clause is present, wrap the root in a
`Selection` via `getSelection` and re-stamp the clause's position with
the checked `setCodeInfoFromNode`. -/
def clauseSelection (root : RANode) (clause : Option SqlClause) :
    Except TransError RANode :=
  match clause with
  | none => .ok root
  | some c => do
    let root ← getSelection root c.arg c.codeInfo
    setCodeInfoFromNode root c.codeInfo

/-- The aggregate-function entries of the SELECT list, in order
(filtered by AST tag). -/
def aggFunctionsOf (args : List SelectArg) : List AggFunctionData :=
  args.filterMap fun col =>
    match col with
    | .aggFunction d => some d
    | _ => none

/-- The group-by/aggregation stage: runs when a GROUP BY clause exists or
the declared aggregate-column count is positive; builds a `GroupBy` when
the SELECT list contains aggregate-function entries, and otherwise a
`Projection` over just the grouping columns. -/
def groupByStage (root : RANode) (groupBy : Option (List ColumnPair))
    (numAggregationColumns : Nat) (projectionArgs : List SelectArg) : RANode :=
  if groupBy.isSome || numAggregationColumns > 0 then
    let aggregateFunctions := aggFunctionsOf projectionArgs
    let groupByCols := groupBy.getD []
    if aggregateFunctions.length > 0 then
      .mk {} (.groupBy root groupByCols aggregateFunctions)
    else
      .mk {} (.projection root (groupByCols.map fun col => ProjArg.col ⟨col.name, col.relAlias⟩))
  else root

/-- The projection-entry loop of the projection stage: aggregate entries
project the bare gamma-produced column name, named expressions carry
their translated child, plain columns a direct column reference. -/
def buildProjections : List SelectArg → Except TransError (List ProjArg)
  | [] => .ok []
  | col :: rest => do
    let p ← (match col with
      | .aggFunction d => .ok (ProjArg.col ⟨d.name, none⟩)
      | .namedColumnExpr name relAlias child => do
        let c ← recValueExpr child
        .ok (ProjArg.expr name relAlias c)
      | .column name relAlias _ => .ok (ProjArg.col ⟨name, relAlias⟩))
    let ps ← buildProjections rest
    .ok (p :: ps)

/-- The projection stage: skipped exactly for the bare unqualified
wildcard; otherwise builds one `Projection` entry per SELECT-list item,
stamps the SELECT clause's position, and records whether any column
entry declared a (truthy) alias. -/
def projectionStage (root : RANode) (select : SelectClause) :
    Except TransError (RANode × Bool) :=
  if isBareWildcard select.arg then
    .ok (root, false)
  else do
    let projections ← buildProjections select.arg
    let colsRenamed := select.arg.any isNamedColumn
    let node ← setCodeInfoFromNode (.mk {} (.projection root projections)) select.codeInfo
    .ok (node, colsRenamed)

/-- The renaming list registered on the `RenameColumns` layer: one
renaming (alias, original name, original relation alias) per
`isNamedColumn` entry, in SELECT-list order. -/
def buildRenamings (args : List SelectArg) : List Renaming :=
  args.filterMap fun arg =>
    if isNamedColumn arg then
      match arg with
      | .column name relAlias colAlias => some ⟨colAlias.getD "", name, relAlias⟩
      | _ => none
    else none

/-- The column-rename stage: only when the projection stage recorded an
aliased column, wrap the root in a `RenameColumns` carrying the
registered renamings. -/
def renameStage (root : RANode) (args : List SelectArg) (colsRenamed : Bool) : RANode :=
  if colsRenamed = true then .mk {} (.renameColumns root (buildRenamings args))
  else root

/-- The SELECT finalization of the statement pipeline: the projection
stage followed by the column-rename stage. -/
def selectStages (root : RANode) (select : SelectClause) : Except TransError RANode := do
  let pr ← projectionStage root select
  .ok (renameStage pr.1 select.arg pr.2)

mutual
/-- The recursive SQL-AST translator `rec`: dispatch on the node kind,
then the shared tail — transfer the parenthesization flag and the
(runtime-checked) source position onto the produced node before
returning it. -/
def rec (cat : Catalog) (n : SqlAstNode) : Except TransError RANode := do
  let node ← recSwitch cat n
  let node := if n.wrappedInParentheses = true then node.setWrappedInParentheses true else node
  setCodeInfoFromNode node n.codeInfo
termination_by (sizeOf n, 1)

/-- The `switch (nRaw.type)` body of `rec`: one case per SQL AST node
kind. -/
def recSwitch (cat : Catalog) (n : SqlAstNode) : Except TransError RANode :=
  match n with
  | .relation name relAlias md =>
    match jsIndexCatalog cat name with
    | none => .error (relationNotFound name md.codeInfo)
    | some found =>
      let rel := copyRelation found
      match relAlias with
      | none => .ok rel
      | some a => .ok (.mk {} (.renameRelation rel a))
  | .statement stmt => do
    let node ← parseStatement cat stmt
    if stmt.select.distinct = false then
      .ok (node.addWarning distinctWarning stmt.codeInfo)
    else
      .ok node
  | .renameRelation child newRelAlias _ => do
    let c ← rec cat child
    .ok (.mk {} (.renameRelation c newRelAlias))
  | .relationFromSubstatement sub relAlias _ => do
    let rel ← rec cat sub
    .ok (.mk {} (.renameRelation rel relAlias))
  | .innerJoin child child2 cond _ => do
    let condition ← parseJoinCondition cond
    let c1 ← rec cat child
    let c2 ← rec cat child2
    .ok (.mk {} (.innerJoin c1 c2 condition))
  | .leftOuterJoin child child2 cond _ => do
    let condition ← parseJoinCondition cond
    let c1 ← rec cat child
    let c2 ← rec cat child2
    .ok (.mk {} (.leftOuterJoin c1 c2 condition))
  | .rightOuterJoin child child2 cond _ => do
    let condition ← parseJoinCondition cond
    let c1 ← rec cat child
    let c2 ← rec cat child2
    .ok (.mk {} (.rightOuterJoin c1 c2 condition))
  | .fullOuterJoin child child2 cond _ => do
    let condition ← parseJoinCondition cond
    let c1 ← rec cat child
    let c2 ← rec cat child2
    .ok (.mk {} (.fullOuterJoin c1 c2 condition))
  | .crossJoin child child2 _ => do
    let c1 ← rec cat child
    let c2 ← rec cat child2
    .ok (.mk {} (.crossJoin c1 c2))
  | .naturalJoin child child2 _ => do
    let c1 ← rec cat child
    let c2 ← rec cat child2
    .ok (.mk {} (.innerJoin c1 c2 (.natural none)))
  | .union child child2 all md => do
    let c1 ← rec cat child
    let c2 ← rec cat child2
    let node : RANode := .mk {} (.union c1 c2)
    if all = true then
      .ok (node.addWarning ignoredAllWarning md.codeInfo)
    else
      .ok node
  | .intersect child child2 all md => do
    let c1 ← rec cat child
    let c2 ← rec cat child2
    let node : RANode := .mk {} (.intersect c1 c2)
    if all = true then
      .ok (node.addWarning ignoredAllWarning md.codeInfo)
    else
      .ok node
  | .exceptOp child child2 all md => do
    let c1 ← rec cat child
    let c2 ← rec cat child2
    let node : RANode := .mk {} (.difference c1 c2)
    if all = true then
      .ok (node.addWarning ignoredAllWarning md.codeInfo)
    else
      .ok node
  | .orderBy child orderings _ => do
    let c ← rec cat child
    let orderCols := orderings.map fun e => ColumnPair.mk e.col.name e.col.relAlias
    let orderAsc := orderings.map fun e => e.asc
    .ok (.mk {} (.orderBy c orderCols orderAsc))
  | .limit lim off child _ => do
    let conditionOffset : ValueExpr := .generic .boolean ">"
      [.node (.generic .number "rownum" [] none false),
       .node (.generic .number "constant" [.raw (.raw (.num off))] none false)] none false
    if lim = -1 then
      let c ← rec cat child
      .ok (.mk {} (.selection c conditionOffset))
    else
      let conditionLimit : ValueExpr := .generic .boolean "<="
        [.node (.generic .number "rownum" [] none false),
         .node (.generic .number "constant" [.raw (.raw (.num (lim + off)))] none false)] none false
      let c ← rec cat child
      .ok (.mk {} (.selection c (.generic .boolean "and"
        [.node conditionOffset, .node conditionLimit] none false)))
termination_by (sizeOf n, 0)

/-- The statement pipeline `parseStatement`: FROM, WHERE, group-by /
aggregation, HAVING, projection, column-rename, each stage conditionally
wrapping the evolving root. -/
def parseStatement (cat : Catalog) (stmt : SqlStatement) : Except TransError RANode :=
  match stmt with
  | .mk select fromClause whereClause groupBy having numAggregationColumns _ _ _ => do
    let root ← rec cat fromClause
    let root ← setCodeInfoFromNode root fromClause.codeInfo
    -- the source calls root.check() here: the exec layer's schema
    -- self-validation, out of this compiler's scope and modelled from the
    -- spec as structure-preserving
    let root ← clauseSelection root whereClause
    let root := groupByStage root groupBy numAggregationColumns select.arg
    let root ← clauseSelection root having
    selectStages root select
termination_by (sizeOf stmt, 2)
end

end relalgFromSQLAstRoot

/-- The SQL root wrapper `sqlAst.rootSql`. -/
structure SqlAstRoot where
  child : SqlAstNode

/-- `relalgFromSQLAstRoot`: translate a SQL AST root against a relation
catalog. -/
def relalgFromSQLAstRoot (astRoot : SqlAstRoot) (relations : Catalog) :
    Except TransError RANode :=
  relalgFromSQLAstRoot.rec relations astRoot.child

/-- Common annotation header of an RA AST node (`relalgAst.relalgOperation`):
mandatory source position, parenthesization flag, optional metadata
mapping. -/
structure RaNodeMeta where
  codeInfo : CodeInfo
  wrappedInParentheses : Bool := false
  metaData : Option (List (String × MetaVal)) := none

/-- One column declaration of an inline `table` literal. -/
structure TableColumnDef where
  name : String
  relAlias : Option String
  type : String

/-- One entry of an RA-AST `projection` argument list. -/
inductive RaProjArg where
  | columnName (c : ColumnPair)
  | namedColumnExpr (name : String) (relAlias : Option String) (child : ValueExprAst)

/-- One entry of an RA-AST `renameColumns` argument list:
destination name and source column. -/
structure RenColAst where
  dst : String
  src : ColumnPair

/-- An RA AST node (`relalgAst.relalgOperation`), tagged by its `type`
discriminator. -/
inductive RelalgAstNode where
  | relation (name : String) (md : RaNodeMeta)
  | table (name : String) (columns : List TableColumnDef) (rows : List (List RawVal)) (md : RaNodeMeta)
  | selection (child : RelalgAstNode) (arg : ValueExprAst) (md : RaNodeMeta)
  | projection (child : RelalgAstNode) (arg : List RaProjArg) (md : RaNodeMeta)
  | orderBy (child : RelalgAstNode) (arg : List OrderingAst) (md : RaNodeMeta)
  | groupBy (child : RelalgAstNode) (group : List ColumnPair) (aggregate : List AggFunctionData) (md : RaNodeMeta)
  | union (child child2 : RelalgAstNode) (md : RaNodeMeta)
  | intersect (child child2 : RelalgAstNode) (md : RaNodeMeta)
  | division (child child2 : RelalgAstNode) (md : RaNodeMeta)
  | difference (child child2 : RelalgAstNode) (md : RaNodeMeta)
  | renameColumns (child : RelalgAstNode) (arg : List RenColAst) (md : RaNodeMeta)
  | renameRelation (child : RelalgAstNode) (newRelAlias : String) (md : RaNodeMeta)
  | thetaJoin (child child2 : RelalgAstNode) (arg : ValueExprAst) (md : RaNodeMeta)
  | crossJoin (child child2 : RelalgAstNode) (md : RaNodeMeta)
  | naturalJoin (child child2 : RelalgAstNode) (md : RaNodeMeta)
  | leftSemiJoin (child child2 : RelalgAstNode) (md : RaNodeMeta)
  | rightSemiJoin (child child2 : RelalgAstNode) (md : RaNodeMeta)
  | antiJoin (child child2 : RelalgAstNode) (md : RaNodeMeta)
  | leftOuterJoin (child child2 : RelalgAstNode) (arg : JoinCondAst) (md : RaNodeMeta)
  | rightOuterJoin (child child2 : RelalgAstNode) (arg : JoinCondAst) (md : RaNodeMeta)
  | fullOuterJoin (child child2 : RelalgAstNode) (arg : JoinCondAst) (md : RaNodeMeta)

/-- The node header of an RA AST node. -/
def RelalgAstNode.meta : RelalgAstNode → RaNodeMeta
  | .relation _ md => md
  | .table _ _ _ md => md
  | .selection _ _ md => md
  | .projection _ _ md => md
  | .orderBy _ _ md => md
  | .groupBy _ _ _ md => md
  | .union _ _ md => md
  | .intersect _ _ md => md
  | .division _ _ md => md
  | .difference _ _ md => md
  | .renameColumns _ _ md => md
  | .renameRelation _ _ md => md
  | .thetaJoin _ _ _ md => md
  | .crossJoin _ _ md => md
  | .naturalJoin _ _ md => md
  | .leftSemiJoin _ _ md => md
  | .rightSemiJoin _ _ md => md
  | .antiJoin _ _ md => md
  | .leftOuterJoin _ _ _ md => md
  | .rightOuterJoin _ _ _ md => md
  | .fullOuterJoin _ _ _ md => md

/-- `setAdditionalData`: the shared annotate step of the RA-syntax
translator — source position, verbatim metadata entries, then the
parenthesization flag. -/
def setAdditionalData (astMd : RaNodeMeta) (node : RANode) : RANode :=
  let node := node.setCodeInfoObject (some astMd.codeInfo)
  let node :=
    match astMd.metaData with
    | none => node
    | some entries => entries.foldl (fun nd kv => nd.setMetaData kv.1 kv.2) node
  if astMd.wrappedInParentheses = true then node.setWrappedInParentheses true else node

/-- The projection-entry loop of the RA-syntax translator's `projection`
case. -/
def buildRaProjections : List RaProjArg → Except TransError (List ProjArg)
  | [] => .ok []
  | el :: rest => do
    let p ← (match el with
      | .columnName e => .ok (ProjArg.col ⟨e.name, e.relAlias⟩)
      | .namedColumnExpr name relAlias child => do
        let c ← recValueExpr child
        .ok (ProjArg.expr name relAlias c))
    let ps ← buildRaProjections rest
    .ok (p :: ps)

/-- The recursive RA-AST translator `recRANode`: each AST node kind maps
to exactly one tree node kind; every produced node goes through
`setAdditionalData`. -/
def recRANode (cat : Catalog) : RelalgAstNode → Except TransError RANode
  | .relation name md =>
    match jsIndexCatalog cat name with
    | none => .error (relationNotFound name (some md.codeInfo))
    | some found => .ok (setAdditionalData md (copyRelation found))
  | .table name columns rows md =>
    let schemaCols := columns.map fun col => (col.name, col.relAlias, col.type)
    let rel : RANode := .mk {} (.relation ⟨name, schemaCols, rows⟩)
    let rel := rel.setMetaData "isInlineRelation" (.boolV true)
    let rel := rel.setMetaData "inlineRelationDefinition" (.str md.codeInfo.text)
    .ok (setAdditionalData md rel)
  | .selection child arg md => do
    let c ← recRANode cat child
    let condition ← recValueExpr arg
    .ok (setAdditionalData md (.mk {} (.selection c condition)))
  | .projection child arg md => do
    let c ← recRANode cat child
    let projections ← buildRaProjections arg
    .ok (setAdditionalData md (.mk {} (.projection c projections)))
  | .orderBy child arg md => do
    let c ← recRANode cat child
    let orderCols := arg.map fun e => ColumnPair.mk e.col.name e.col.relAlias
    let orderAsc := arg.map fun e => e.asc
    .ok (setAdditionalData md (.mk {} (.orderBy c orderCols orderAsc)))
  | .groupBy child group aggregate md => do
    let c ← recRANode cat child
    .ok (setAdditionalData md (.mk {} (.groupBy c group aggregate)))
  | .union child child2 md => do
    let c1 ← recRANode cat child
    let c2 ← recRANode cat child2
    .ok (setAdditionalData md (.mk {} (.union c1 c2)))
  | .intersect child child2 md => do
    let c1 ← recRANode cat child
    let c2 ← recRANode cat child2
    .ok (setAdditionalData md (.mk {} (.intersect c1 c2)))
  | .division child child2 md => do
    let c1 ← recRANode cat child
    let c2 ← recRANode cat child2
    .ok (setAdditionalData md (.mk {} (.division c1 c2)))
  | .difference child child2 md => do
    let c1 ← recRANode cat child
    let c2 ← recRANode cat child2
    .ok (setAdditionalData md (.mk {} (.difference c1 c2)))
  | .renameColumns child arg md => do
    let c ← recRANode cat child
    let renamings := arg.map fun e => Renaming.mk e.dst e.src.name e.src.relAlias
    .ok (setAdditionalData md (.mk {} (.renameColumns c renamings)))
  | .renameRelation child newRelAlias md => do
    let c ← recRANode cat child
    .ok (setAdditionalData md (.mk {} (.renameRelation c newRelAlias)))
  | .thetaJoin child child2 arg md => do
    let condition ← recValueExpr arg
    let c1 ← recRANode cat child
    let c2 ← recRANode cat child2
    .ok (setAdditionalData md (.mk {} (.innerJoin c1 c2 (.theta condition))))
  | .crossJoin child child2 md => do
    let c1 ← recRANode cat child
    let c2 ← recRANode cat child2
    .ok (setAdditionalData md (.mk {} (.crossJoin c1 c2)))
  | .naturalJoin child child2 md => do
    let c1 ← recRANode cat child
    let c2 ← recRANode cat child2
    .ok (setAdditionalData md (.mk {} (.innerJoin c1 c2 (.natural none))))
  | .leftSemiJoin child child2 md => do
    let c1 ← recRANode cat child
    let c2 ← recRANode cat child2
    .ok (setAdditionalData md (.mk {} (.semiJoin c1 c2 true)))
  | .rightSemiJoin child child2 md => do
    let c1 ← recRANode cat child
    let c2 ← recRANode cat child2
    .ok (setAdditionalData md (.mk {} (.semiJoin c1 c2 false)))
  | .antiJoin child child2 md => do
    let c1 ← recRANode cat child
    let c2 ← recRANode cat child2
    .ok (setAdditionalData md (.mk {} (.antiJoin c1 c2)))
  | .leftOuterJoin child child2 arg md => do
    let c1 ← recRANode cat child
    let c2 ← recRANode cat child2
    let condition ← parseJoinCondition arg
    .ok (setAdditionalData md (.mk {} (.leftOuterJoin c1 c2 condition)))
  | .rightOuterJoin child child2 arg md => do
    let c1 ← recRANode cat child
    let c2 ← recRANode cat child2
    let condition ← parseJoinCondition arg
    .ok (setAdditionalData md (.mk {} (.rightOuterJoin c1 c2 condition)))
  | .fullOuterJoin child child2 arg md => do
    let c1 ← recRANode cat child
    let c2 ← recRANode cat child2
    let condition ← parseJoinCondition arg
    .ok (setAdditionalData md (.mk {} (.fullOuterJoin c1 c2 condition)))

/-- `relalgFromRelalgAstNode`: translate one RA AST node against a
relation catalog. -/
def relalgFromRelalgAstNode (astNode : RelalgAstNode) (relations : Catalog) :
    Except TransError RANode :=
  recRANode relations astNode

/-- The RA root wrapper `relalgAst.rootRelalg`. -/
structure RelalgAstRoot where
  child : RelalgAstNode

/-- `relalgFromRelalgAstRoot`: translate an RA AST root against a
relation catalog. -/
def relalgFromRelalgAstRoot (astRoot : RelalgAstRoot) (relations : Catalog) :
    Except TransError RANode :=
  relalgFromRelalgAstNode astRoot.child relations

theorem except_bind_ok {α β ε : Type} {x : Except ε α} {f : α → Except ε β} {r : β} :
    (x >>= f) = .ok r ↔ ∃ a, x = .ok a ∧ f a = .ok r := by
  cases x <;> simp [Bind.bind, Except.bind]

theorem except_pure_eq {α ε : Type} (a : α) : (pure a : Except ε α) = .ok a := rfl

namespace relalgFromSQLAstRoot

theorem setCodeInfoFromNode_ok {node r : RANode} {ci : Option CodeInfo} :
    setCodeInfoFromNode node ci = .ok r ↔
      ∃ c, ci = some c ∧ r = node.setCodeInfoObject (some c) := by
  cases ci with
  | none => simp [setCodeInfoFromNode]
  | some c =>
    simp [setCodeInfoFromNode]
    exact ⟨fun h => h.symm, fun h => h.symm⟩

theorem rec_ok_iff {cat : Catalog} {n : SqlAstNode} {r : RANode} :
    rec cat n = .ok r ↔
      ∃ node, recSwitch cat n = .ok node ∧ ∃ c, n.codeInfo = some c ∧
        r = RANode.setCodeInfoObject
          (if n.wrappedInParentheses = true then node.setWrappedInParentheses true else node)
          (some c) := by
  unfold rec
  rw [except_bind_ok]
  constructor
  · rintro ⟨node, h1, h2⟩
    exact ⟨node, h1, (setCodeInfoFromNode_ok).mp h2⟩
  · rintro ⟨node, h1, c, h2, h3⟩
    exact ⟨node, h1, (setCodeInfoFromNode_ok).mpr ⟨c, h2, h3⟩⟩

end relalgFromSQLAstRoot

@[simp] theorem RANode.op_mk (i : NodeInfo) (o : RAOp) : (RANode.mk i o).op = o := rfl

@[simp] theorem RANode.info_mk (i : NodeInfo) (o : RAOp) : (RANode.mk i o).info = i := rfl

@[simp] theorem RANode.op_setCodeInfoObject (n : RANode) (ci : Option CodeInfo) :
    (n.setCodeInfoObject ci).op = n.op := by cases n; rfl

@[simp] theorem RANode.op_setWrappedInParentheses (n : RANode) (w : Bool) :
    (n.setWrappedInParentheses w).op = n.op := by cases n; rfl

@[simp] theorem RANode.op_addWarning (n : RANode) (msg : Message) (ci : Option CodeInfo) :
    (n.addWarning msg ci).op = n.op := by cases n; rfl

@[simp] theorem RANode.op_setMetaData (n : RANode) (k : String) (v : MetaVal) :
    (n.setMetaData k v).op = n.op := by cases n; rfl

@[simp] theorem RANode.info_setCodeInfoObject (n : RANode) (ci : Option CodeInfo) :
    (n.setCodeInfoObject ci).info = { n.info with codeInfo := ci } := by cases n; rfl

@[simp] theorem RANode.info_setWrappedInParentheses (n : RANode) (w : Bool) :
    (n.setWrappedInParentheses w).info = { n.info with wrappedInParentheses := w } := by
  cases n; rfl

@[simp] theorem RANode.info_addWarning (n : RANode) (msg : Message) (ci : Option CodeInfo) :
    (n.addWarning msg ci).info = { n.info with warnings := n.info.warnings ++ [(msg, ci)] } := by
  cases n; rfl

@[simp] theorem RANode.info_setMetaData (n : RANode) (k : String) (v : MetaVal) :
    (n.setMetaData k v).info = { n.info with metaData := setMetaEntry n.info.metaData k v } := by
  cases n; rfl

@[simp] theorem RANode.op_wrapIf (b : Bool) (node : RANode) :
    (if b = true then node.setWrappedInParentheses true else node).op = node.op := by
  cases b <;> simp

@[simp] theorem RANode.warnings_wrapIf (b : Bool) (node : RANode) :
    (if b = true then node.setWrappedInParentheses true else node).info.warnings =
      node.info.warnings := by
  cases b <;> simp

@[simp] theorem RANode.metaData_wrapIf (b : Bool) (node : RANode) :
    (if b = true then node.setWrappedInParentheses true else node).info.metaData =
      node.info.metaData := by
  cases b <;> simp

/-- The implicit `rownum` pseudo-column expression built by the limit
lowering, as the spec words it. -/
def rownumExpr : ValueExpr := .generic .number "rownum" [] none false

/-- A verbatim numeric constant expression, as built by the limit
lowering. -/
def numConstant (v : Int) : ValueExpr :=
  .generic .number "constant" [.raw (.raw (.num v))] none false

/-- The predicate `rownum > offset` (strict), as the spec words it. -/
def rownumGreaterOffset (off : Int) : ValueExpr :=
  .generic .boolean ">" [.node rownumExpr, .node (numConstant off)] none false

/-- The predicate `rownum <= limit + offset` (inclusive), as the spec
words it. -/
def rownumLeLimitPlusOffset (lim off : Int) : ValueExpr :=
  .generic .boolean "<=" [.node rownumExpr, .node (numConstant (lim + off))] none false

/-- The canonical LIMIT/OFFSET lowering condition as the spec states it:
`rownum > offset` alone for `LIMIT ALL` (encoded as limit `-1`),
otherwise `(rownum > offset) AND (rownum <= limit + offset)`. -/
def specLimitCondition (lim off : Int) : ValueExpr :=
  if lim = -1 then rownumGreaterOffset off
  else .generic .boolean "and"
    [.node (rownumGreaterOffset off), .node (rownumLeLimitPlusOffset lim off)] none false

/-- C1: for every SQL-AST `limit` node the translator produces a
Selection over the translated child whose condition is the canonical
lowering: the single predicate `rownum > offset` when the limit value
denotes LIMIT ALL, and the conjunction
`(rownum > offset) AND (rownum <= limit + offset)` otherwise, with
strict `>` on the offset bound and inclusive `<=` on the upper bound. -/
theorem C1_limit_lowering (cat : Catalog) (lim off : Int) (child : SqlAstNode)
    (md : SqlNodeMeta) (r : RANode)
    (h : relalgFromSQLAstRoot.rec cat (.limit lim off child md) = .ok r) :
    ∃ c, relalgFromSQLAstRoot.rec cat child = .ok c ∧
      r.op = .selection c (specLimitCondition lim off) := by
  rw [relalgFromSQLAstRoot.rec_ok_iff] at h
  obtain ⟨node, hsw, c0, hci, hr⟩ := h
  unfold relalgFromSQLAstRoot.recSwitch at hsw
  by_cases hlim : lim = -1
  · subst hlim
    simp only [if_pos, except_bind_ok, Except.ok.injEq] at hsw
    obtain ⟨c, hc, hnode⟩ := hsw
    refine ⟨c, hc, ?_⟩
    subst hr
    simp [← hnode, specLimitCondition, rownumGreaterOffset, rownumExpr, numConstant]
  · rw [if_neg hlim] at hsw
    rw [except_bind_ok] at hsw
    obtain ⟨c, hc, hnode⟩ := hsw
    rw [Except.ok.injEq] at hnode
    refine ⟨c, hc, ?_⟩
    subst hr
    simp [← hnode, specLimitCondition, rownumGreaterOffset, rownumExpr, numConstant,
      rownumLeLimitPlusOffset, if_neg hlim]

/-- Witness for C1: concrete `LIMIT 10 OFFSET 5` over relation `R`
yields the conjunction `rownum > 5 AND rownum <= 15`. -/
theorem C1_limit_lowering_witness :
    ∃ c, relalgFromSQLAstRoot.rec [("R", some {name := "R"})]
        (.relation "R" none {codeInfo := some {}}) = .ok c ∧
      (RANode.mk {codeInfo := some {}}
        (.selection (.mk {codeInfo := some {}} (.relation {name := "R"}))
          (.generic .boolean "and"
            [.node (.generic .boolean ">"
              [.node (.generic .number "rownum" [] none false),
               .node (.generic .number "constant" [.raw (.raw (.num 5))] none false)] none false),
             .node (.generic .boolean "<="
              [.node (.generic .number "rownum" [] none false),
               .node (.generic .number "constant" [.raw (.raw (.num 15))] none false)] none false)]
            none false))).op
        = .selection c (specLimitCondition 10 5) :=
  C1_limit_lowering [("R", some {name := "R"})] 10 5
    (.relation "R" none {codeInfo := some {}}) {codeInfo := some {}} _
    (by simp [relalgFromSQLAstRoot.rec, relalgFromSQLAstRoot.recSwitch, jsIndexCatalog, jsLookup,
      copyRelation, relalgFromSQLAstRoot.setCodeInfoFromNode, SqlAstNode.codeInfo,
      SqlAstNode.wrappedInParentheses, SqlAstNode.meta, RANode.setCodeInfoObject,
      Bind.bind, Except.bind])

/-- A catalog as typed in the source (`{ [key: string]: Relation }`):
every present key is bound to a defined relation value. -/
def WellTypedCatalog (cat : Catalog) : Prop := ∀ p ∈ cat, p.2.isSome = true

/-- C5: in both translators, a relation reference whose name is not a
catalog key fails with the relation-not-found error carrying the name
and the reference's source position (no tree is returned); a name
present in a (well-typed) catalog never raises a user-facing
`ExecutionError` at that node. -/
theorem C5_relation_not_found (cat : Catalog) (name : String)
    (relAlias : Option String) (md : SqlNodeMeta) (rmd : RaNodeMeta)
    (hwt : WellTypedCatalog cat) :
    (jsLookup cat name = none →
      relalgFromSQLAstRoot.rec cat (.relation name relAlias md) =
        .error (relationNotFound name md.codeInfo) ∧
      recRANode cat (.relation name rmd) =
        .error (relationNotFound name (some rmd.codeInfo))) ∧
    ((∃ v, jsLookup cat name = some v) →
      (∀ m ci, relalgFromSQLAstRoot.rec cat (.relation name relAlias md) ≠
        .error (.execution m ci)) ∧
      (∀ m ci, recRANode cat (.relation name rmd) ≠ .error (.execution m ci))) := by
  constructor
  · intro habs
    have hidx : jsIndexCatalog cat name = none := by
      simp [jsIndexCatalog, habs]
    constructor
    · unfold relalgFromSQLAstRoot.rec relalgFromSQLAstRoot.recSwitch
      simp [hidx, Bind.bind, Except.bind]
    · unfold recRANode
      simp [hidx]
  · rintro ⟨v, hv⟩
    obtain ⟨d, hd⟩ : ∃ d, v = some d := by
      obtain ⟨p, hp, hpv⟩ : ∃ p ∈ cat, p.2 = v := by
        obtain ⟨p, hfind⟩ : ∃ p, List.find? (fun p => p.1 = name) cat = some p := by
          cases hfind : List.find? (fun p => p.1 = name) cat with
          | none => simp [jsLookup, hfind] at hv
          | some p => exact ⟨p, rfl⟩
        refine ⟨p, List.mem_of_find?_eq_some hfind, ?_⟩
        simp [jsLookup, hfind] at hv
        exact hv
      have := hwt p hp
      rw [hpv] at this
      cases v with
      | none => simp at this
      | some d => exact ⟨d, rfl⟩
    subst hd
    have hidx : jsIndexCatalog cat name = some d := by
      simp [jsIndexCatalog, hv]
    constructor
    · intro m ci
      unfold relalgFromSQLAstRoot.rec relalgFromSQLAstRoot.recSwitch
      simp only [hidx]
      cases relAlias with
      | none =>
        cases hci : SqlAstNode.codeInfo (.relation name none md) with
        | none => simp [Bind.bind, Except.bind, relalgFromSQLAstRoot.setCodeInfoFromNode, hci]
        | some c => simp [Bind.bind, Except.bind, relalgFromSQLAstRoot.setCodeInfoFromNode, hci]
      | some a =>
        cases hci : SqlAstNode.codeInfo (.relation name (some a) md) with
        | none => simp [Bind.bind, Except.bind, relalgFromSQLAstRoot.setCodeInfoFromNode, hci]
        | some c => simp [Bind.bind, Except.bind, relalgFromSQLAstRoot.setCodeInfoFromNode, hci]
    · intro m ci
      unfold recRANode
      simp [hidx]

/-- C10: a catalog key bound to `undefined` is treated identically to an
absent key by both translators: the lookup raises the relation-not-found
translation error, exactly as against a catalog without the key. -/
theorem C10_undefined_key_like_absent (cat : Catalog) (name : String)
    (relAlias : Option String) (md : SqlNodeMeta) (rmd : RaNodeMeta) :
    relalgFromSQLAstRoot.rec ((name, none) :: cat) (.relation name relAlias md) =
      .error (relationNotFound name md.codeInfo) ∧
    recRANode ((name, none) :: cat) (.relation name rmd) =
      .error (relationNotFound name (some rmd.codeInfo)) ∧
    relalgFromSQLAstRoot.rec ((name, none) :: cat) (.relation name relAlias md) =
      relalgFromSQLAstRoot.rec [] (.relation name relAlias md) ∧
    recRANode ((name, none) :: cat) (.relation name rmd) =
      recRANode [] (.relation name rmd) := by
  have hidx : jsIndexCatalog ((name, none) :: cat) name = none := by
    simp [jsIndexCatalog, jsLookup, List.find?]
  have hidx0 : jsIndexCatalog ([] : Catalog) name = none := by
    simp [jsIndexCatalog, jsLookup, List.find?]
  refine ⟨?_, ?_, ?_, ?_⟩
  · unfold relalgFromSQLAstRoot.rec relalgFromSQLAstRoot.recSwitch
    simp [hidx, Bind.bind, Except.bind]
  · unfold recRANode
    simp [hidx]
  · unfold relalgFromSQLAstRoot.rec relalgFromSQLAstRoot.recSwitch
    simp [hidx, hidx0, Bind.bind, Except.bind]
  · unfold recRANode
    simp [hidx, hidx0]

/-- Witness for C5: relation `ghost` is absent from the catalog `{R}`
and fails with the relation-not-found error in both translators, while
`R` itself never raises a user-facing error. -/
theorem C5_relation_not_found_witness :
    relalgFromSQLAstRoot.rec [("R", some {name := "R"})]
        (.relation "ghost" none {codeInfo := some {}}) =
      .error (relationNotFound "ghost" (some {})) ∧
    recRANode [("R", some {name := "R"})] (.relation "ghost" {codeInfo := {}}) =
      .error (relationNotFound "ghost" (some {})) ∧
    (∀ m ci, relalgFromSQLAstRoot.rec [("R", some {name := "R"})]
        (.relation "R" none {codeInfo := some {}}) ≠ .error (.execution m ci)) := by
  have hwt : WellTypedCatalog [("R", some {name := "R"})] := by
    intro p hp; simp at hp; simp [hp]
  have habs := (C5_relation_not_found [("R", some {name := "R"})] "ghost" none
    {codeInfo := some {}} {codeInfo := {}} hwt).1 (by simp [jsLookup, List.find?])
  have hpres := (C5_relation_not_found [("R", some {name := "R"})] "R" none
    {codeInfo := some {}} {codeInfo := {}} hwt).2
    ⟨some {name := "R"}, by simp [jsLookup, List.find?]⟩
  exact ⟨habs.1, habs.2, hpres.1⟩

theorem aggFunctionsOf_eq_nil_iff (args : List SelectArg) :
    relalgFromSQLAstRoot.aggFunctionsOf args = [] ↔
      ¬∃ d, SelectArg.aggFunction d ∈ args := by
  induction args with
  | nil => simp [relalgFromSQLAstRoot.aggFunctionsOf]
  | cons a rest ih =>
    cases a with
    | column n r al =>
      simp [relalgFromSQLAstRoot.aggFunctionsOf, List.filterMap_cons] at ih ⊢
      exact ih
    | aggFunction d =>
      simp [relalgFromSQLAstRoot.aggFunctionsOf, List.filterMap_cons]
    | namedColumnExpr n r c =>
      simp [relalgFromSQLAstRoot.aggFunctionsOf, List.filterMap_cons] at ih ⊢
      exact ih

/-- C3: when a GROUP BY clause exists or the declared aggregate-column
count is positive, the stage builds a `GroupBy` exactly when the SELECT
list contains an `aggFunction`-tagged entry, and otherwise degenerates
to a `Projection` over exactly the grouping columns — never both. -/
theorem C3_groupby_iff_aggregates (root : RANode) (groupBy : Option (List ColumnPair))
    (numAggregationColumns : Nat) (args : List SelectArg)
    (h : groupBy.isSome = true ∨ 0 < numAggregationColumns) :
    ((∃ d, SelectArg.aggFunction d ∈ args) →
      relalgFromSQLAstRoot.groupByStage root groupBy numAggregationColumns args =
        .mk {} (.groupBy root (groupBy.getD []) (relalgFromSQLAstRoot.aggFunctionsOf args))) ∧
    ((¬∃ d, SelectArg.aggFunction d ∈ args) →
      relalgFromSQLAstRoot.groupByStage root groupBy numAggregationColumns args =
        .mk {} (.projection root
          ((groupBy.getD []).map fun col => ProjArg.col ⟨col.name, col.relAlias⟩))) := by
  have hcond : (groupBy.isSome || decide (0 < numAggregationColumns)) = true := by
    rcases h with h | h <;> simp [h]
  constructor
  · intro hex
    have hne : relalgFromSQLAstRoot.aggFunctionsOf args ≠ [] := by
      intro hnil
      exact (aggFunctionsOf_eq_nil_iff args).mp hnil hex
    have hlen : 0 < (relalgFromSQLAstRoot.aggFunctionsOf args).length :=
      List.length_pos.mpr hne
    simp [relalgFromSQLAstRoot.groupByStage, hcond, hlen]
  · intro hno
    have hnil := (aggFunctionsOf_eq_nil_iff args).mpr hno
    simp [relalgFromSQLAstRoot.groupByStage, hcond, hnil]

theorem selectStages_bare (root : RANode) (select : SelectClause)
    (hb : relalgFromSQLAstRoot.isBareWildcard select.arg = true) :
    relalgFromSQLAstRoot.selectStages root select = .ok root := by
  simp [relalgFromSQLAstRoot.selectStages, relalgFromSQLAstRoot.projectionStage, hb,
    relalgFromSQLAstRoot.renameStage, Bind.bind, Except.bind]

theorem selectStages_not_bare {root : RANode} {select : SelectClause} {r : RANode}
    (hb : relalgFromSQLAstRoot.isBareWildcard select.arg = false) :
    relalgFromSQLAstRoot.selectStages root select = .ok r ↔
      ∃ cols c, relalgFromSQLAstRoot.buildProjections select.arg = .ok cols ∧
        select.codeInfo = some c ∧
        r = relalgFromSQLAstRoot.renameStage
          (RANode.setCodeInfoObject (.mk {} (.projection root cols)) (some c))
          select.arg (select.arg.any relalgFromSQLAstRoot.isNamedColumn) := by
  simp only [relalgFromSQLAstRoot.selectStages, relalgFromSQLAstRoot.projectionStage, hb,
    Bool.false_eq_true, if_false, except_bind_ok, relalgFromSQLAstRoot.setCodeInfoFromNode_ok]
  constructor
  · rintro ⟨pr, ⟨cols, hcols, node, ⟨c, hc, hnodeeq⟩, hpr⟩, hr⟩
    rw [Except.ok.injEq] at hpr hr
    subst hpr hnodeeq
    exact ⟨cols, c, hcols, hc, hr.symm⟩
  · rintro ⟨cols, c, hcols, hc, hr⟩
    exact ⟨(RANode.setCodeInfoObject (.mk {} (.projection root cols)) (some c),
      select.arg.any relalgFromSQLAstRoot.isNamedColumn),
      ⟨cols, hcols, RANode.setCodeInfoObject (.mk {} (.projection root cols)) (some c),
        ⟨c, hc, rfl⟩, rfl⟩, by rw [hr]⟩

/-- C2: the projection stage inserts a Projection layer exactly when the
SELECT list is not the single unqualified `*` column entry; for the bare
wildcard the select finalization returns the preceding stages' root
unchanged. -/
theorem C2_projection_iff_not_wildcard (root : RANode) (select : SelectClause) :
    (relalgFromSQLAstRoot.isBareWildcard select.arg = true →
      relalgFromSQLAstRoot.selectStages root select = .ok root) ∧
    (relalgFromSQLAstRoot.isBareWildcard select.arg = false →
      ∀ r, relalgFromSQLAstRoot.selectStages root select = .ok r →
        ∃ cols c, select.codeInfo = some c ∧
          (r = RANode.setCodeInfoObject (.mk {} (.projection root cols)) (some c) ∨
            r = .mk {} (.renameColumns
              (RANode.setCodeInfoObject (.mk {} (.projection root cols)) (some c))
              (relalgFromSQLAstRoot.buildRenamings select.arg)))) := by
  constructor
  · exact selectStages_bare root select
  · intro hb r hr
    rw [selectStages_not_bare hb] at hr
    obtain ⟨cols, c, hcols, hc, hr⟩ := hr
    refine ⟨cols, c, hc, ?_⟩
    unfold relalgFromSQLAstRoot.renameStage at hr
    cases hany : select.arg.any relalgFromSQLAstRoot.isNamedColumn with
    | false =>
      rw [hany] at hr
      simp at hr
      exact Or.inl hr
    | true =>
      rw [hany] at hr
      simp at hr
      exact Or.inr hr

/-- The rename registrations as the spec words them: one renaming
(alias ← original name plus original relation alias) per explicitly
(truthily) aliased column entry, in SELECT-list order. -/
def specRenamings (args : List SelectArg) : List Renaming :=
  args.filterMap fun arg =>
    match arg with
    | .column name relAlias (some al) => if al = "" then none else some ⟨al, name, relAlias⟩
    | _ => none

theorem buildRenamings_eq_spec (args : List SelectArg) :
    relalgFromSQLAstRoot.buildRenamings args = specRenamings args := by
  induction args with
  | nil => rfl
  | cons a rest ih =>
    cases a with
    | column n rel al =>
      cases al with
      | none =>
        simp [relalgFromSQLAstRoot.buildRenamings, specRenamings, List.filterMap_cons,
          relalgFromSQLAstRoot.isNamedColumn] at ih ⊢
        exact ih
      | some s =>
        by_cases hs : s = ""
        · subst hs
          simp [relalgFromSQLAstRoot.buildRenamings, specRenamings, List.filterMap_cons,
            relalgFromSQLAstRoot.isNamedColumn] at ih ⊢
          exact ih
        · simp [relalgFromSQLAstRoot.buildRenamings, specRenamings, List.filterMap_cons,
            relalgFromSQLAstRoot.isNamedColumn, hs] at ih ⊢
          exact ih
    | aggFunction d =>
      simp [relalgFromSQLAstRoot.buildRenamings, specRenamings, List.filterMap_cons,
        relalgFromSQLAstRoot.isNamedColumn] at ih ⊢
      exact ih
    | namedColumnExpr n rel c =>
      simp [relalgFromSQLAstRoot.buildRenamings, specRenamings, List.filterMap_cons,
        relalgFromSQLAstRoot.isNamedColumn] at ih ⊢
      exact ih

/-- C4 (amended): a `RenameColumns` node is inserted iff at least one
SELECT-list column entry carries a truthy alias AND the SELECT list is
not the bare-wildcard singleton (whose projection stage — and with it any
renaming — is skipped, its alias ignored); when inserted it sits directly
above the Projection built by the projection stage and registers one
renaming per aliased item, in SELECT-list order. -/
theorem C4_rename_layer (root : RANode) (select : SelectClause) (r : RANode)
    (h : relalgFromSQLAstRoot.selectStages root select = .ok r) :
    (select.arg.any relalgFromSQLAstRoot.isNamedColumn = true ∧
        relalgFromSQLAstRoot.isBareWildcard select.arg = false →
      ∃ cols c, select.codeInfo = some c ∧
        r = .mk {} (.renameColumns
          (RANode.setCodeInfoObject (.mk {} (.projection root cols)) (some c))
          (specRenamings select.arg))) ∧
    (select.arg.any relalgFromSQLAstRoot.isNamedColumn = false ∨
        relalgFromSQLAstRoot.isBareWildcard select.arg = true →
      r = root ∨ ∃ cols c, select.codeInfo = some c ∧
        r = RANode.setCodeInfoObject (.mk {} (.projection root cols)) (some c)) := by
  constructor
  · rintro ⟨hany, hb⟩
    rw [selectStages_not_bare hb] at h
    obtain ⟨cols, c, hcols, hc, hr⟩ := h
    refine ⟨cols, c, hc, ?_⟩
    rw [hr]
    unfold relalgFromSQLAstRoot.renameStage
    rw [hany]
    simp [buildRenamings_eq_spec]
  · intro hor
    cases hb : relalgFromSQLAstRoot.isBareWildcard select.arg with
    | true =>
      have := selectStages_bare root select hb
      rw [this] at h
      exact Or.inl (Except.ok.inj h).symm
    | false =>
      have hany : select.arg.any relalgFromSQLAstRoot.isNamedColumn = false := by
        rcases hor with hf | ht
        · exact hf
        · rw [hb] at ht; cases ht
      rw [selectStages_not_bare hb] at h
      obtain ⟨cols, c, hcols, hc, hr⟩ := h
      refine Or.inr ⟨cols, c, hc, ?_⟩
      rw [hr]
      unfold relalgFromSQLAstRoot.renameStage
      rw [hany]
      simp

/-- Counterexample for C4 as frozen: the SELECT list `* AS x` contains an
explicitly aliased column entry (`isNamedColumn` is true for it), yet the
translated statement is exactly the translated FROM relation — no
`RenameColumns` layer is inserted, because the bare-wildcard test ignores
the alias and skips the projection stage. -/
theorem C4_rename_counterexample :
    relalgFromSQLAstRoot.isNamedColumn (.column "*" none (some "x")) = true ∧
    relalgFromSQLAstRoot.rec [("R", some {name := "R"})]
        (.statement (.mk ⟨true, [.column "*" none (some "x")], some {}⟩
          (.relation "R" none {codeInfo := some {}}) none none none 0 (some {}) false none)) =
      .ok (.mk {codeInfo := some {}} (.relation {name := "R"})) := by
  refine ⟨rfl, ?_⟩
  simp [relalgFromSQLAstRoot.rec, relalgFromSQLAstRoot.recSwitch,
    relalgFromSQLAstRoot.parseStatement, relalgFromSQLAstRoot.selectStages,
    relalgFromSQLAstRoot.projectionStage, relalgFromSQLAstRoot.isBareWildcard,
    relalgFromSQLAstRoot.renameStage, relalgFromSQLAstRoot.clauseSelection,
    relalgFromSQLAstRoot.groupByStage, relalgFromSQLAstRoot.setCodeInfoFromNode,
    jsIndexCatalog, jsLookup, copyRelation, SqlAstNode.codeInfo, SqlAstNode.meta,
    SqlAstNode.wrappedInParentheses, SqlStatement.select, SqlStatement.fromClause,
    SqlStatement.whereClause, SqlStatement.groupBy, SqlStatement.having,
    SqlStatement.numAggregationColumns, SqlStatement.codeInfo,
    SqlStatement.wrappedInParentheses, SqlStatement.metaData,
    RANode.setCodeInfoObject, Bind.bind, Except.bind]

theorem C2_projection_iff_not_wildcard_witness :
    relalgFromSQLAstRoot.selectStages (.mk {} (.relation {name := "R"}))
        ⟨true, [.column "*" none none], some {}⟩ =
      .ok (.mk {} (.relation {name := "R"})) ∧
    ∃ cols c, (some ({} : CodeInfo)) = some c ∧
      (RANode.setCodeInfoObject
          (.mk {} (.projection (.mk {} (.relation {name := "R"})) [.col ⟨"a", none⟩])) (some {}) =
        RANode.setCodeInfoObject
          (.mk {} (.projection (.mk {} (.relation {name := "R"})) cols)) (some c) ∨
        RANode.setCodeInfoObject
          (.mk {} (.projection (.mk {} (.relation {name := "R"})) [.col ⟨"a", none⟩])) (some {}) =
        .mk {} (.renameColumns
          (RANode.setCodeInfoObject
            (.mk {} (.projection (.mk {} (.relation {name := "R"})) cols)) (some c))
          (relalgFromSQLAstRoot.buildRenamings [.column "a" none none]))) :=
  ⟨(C2_projection_iff_not_wildcard (.mk {} (.relation {name := "R"}))
      ⟨true, [.column "*" none none], some {}⟩).1 rfl,
   (C2_projection_iff_not_wildcard (.mk {} (.relation {name := "R"}))
      ⟨true, [.column "a" none none], some {}⟩).2 rfl _ rfl⟩

theorem C4_rename_layer_witness :
    ∃ cols c, (some ({} : CodeInfo)) = some c ∧
      (RANode.mk {} (.renameColumns
        (RANode.setCodeInfoObject
          (.mk {} (.projection (.mk {} (.relation {name := "R"}))
            [.col ⟨"a", none⟩, .col ⟨"b", none⟩])) (some {}))
        [⟨"x", "a", none⟩]) : RANode) =
      .mk {} (.renameColumns
        (RANode.setCodeInfoObject
          (.mk {} (.projection (.mk {} (.relation {name := "R"})) cols)) (some c))
        (specRenamings [.column "a" none (some "x"), .column "b" none none])) :=
  (C4_rename_layer (.mk {} (.relation {name := "R"}))
    ⟨true, [.column "a" none (some "x"), .column "b" none none], some {}⟩
    (.mk {} (.renameColumns
      (RANode.setCodeInfoObject
        (.mk {} (.projection (.mk {} (.relation {name := "R"}))
          [.col ⟨"a", none⟩, .col ⟨"b", none⟩])) (some {}))
      [⟨"x", "a", none⟩])) rfl).1 ⟨rfl, rfl⟩

theorem C3_groupby_iff_aggregates_witness :
    relalgFromSQLAstRoot.groupByStage (.mk {} (.relation {name := "R"}))
        (some [⟨"c", none⟩]) 1 [.aggFunction ⟨"COUNT", "count_all"⟩] =
      .mk {} (.groupBy (.mk {} (.relation {name := "R"})) [⟨"c", none⟩]
        (relalgFromSQLAstRoot.aggFunctionsOf [.aggFunction ⟨"COUNT", "count_all"⟩])) ∧
    relalgFromSQLAstRoot.groupByStage (.mk {} (.relation {name := "R"}))
        (some [⟨"c", none⟩]) 0 [.column "c" none none] =
      .mk {} (.projection (.mk {} (.relation {name := "R"}))
        (([⟨"c", none⟩] : List ColumnPair).map fun col => ProjArg.col ⟨col.name, col.relAlias⟩)) := by
  constructor
  · exact (C3_groupby_iff_aggregates (.mk {} (.relation {name := "R"})) (some [⟨"c", none⟩]) 1
      [.aggFunction ⟨"COUNT", "count_all"⟩] (Or.inr (by decide))).1
      ⟨⟨"COUNT", "count_all"⟩, by simp⟩
  · exact (C3_groupby_iff_aggregates (.mk {} (.relation {name := "R"})) (some [⟨"c", none⟩]) 0
      [.column "c" none none] (Or.inl rfl)).2 (by simp)

/-- A SELECT-list entry with the empty string as alias, rewritten to the
same entry with no alias at all — the shape C8 claims the translator
cannot distinguish. -/
def clearEmptyAlias : SelectArg → SelectArg
  | .column name relAlias (some s) =>
    if s = "" then .column name relAlias none else .column name relAlias (some s)
  | a => a

theorem isBareWildcard_map_clear (args : List SelectArg) :
    relalgFromSQLAstRoot.isBareWildcard (args.map clearEmptyAlias) =
      relalgFromSQLAstRoot.isBareWildcard args := by
  match args with
  | [] => rfl
  | a :: b :: rest =>
    have hf : ∀ (x y : SelectArg) (l : List SelectArg),
        relalgFromSQLAstRoot.isBareWildcard (x :: y :: l) = false := by
      intro x y l
      cases x <;> rfl
    rw [List.map_cons, List.map_cons, hf, hf]
  | [a] =>
    cases a with
    | column n r al =>
      cases al with
      | none => rfl
      | some s =>
        by_cases hs : s = "" <;>
          simp [clearEmptyAlias, relalgFromSQLAstRoot.isBareWildcard, hs]
    | aggFunction d => rfl
    | namedColumnExpr n r c => rfl

theorem isNamedColumn_clear (a : SelectArg) :
    relalgFromSQLAstRoot.isNamedColumn (clearEmptyAlias a) =
      relalgFromSQLAstRoot.isNamedColumn a := by
  cases a with
  | column n r al =>
    cases al with
    | none => rfl
    | some s =>
      by_cases hs : s = "" <;>
        simp [clearEmptyAlias, relalgFromSQLAstRoot.isNamedColumn, hs]
  | aggFunction d => rfl
  | namedColumnExpr n r c => rfl

theorem any_isNamedColumn_map_clear (args : List SelectArg) :
    (args.map clearEmptyAlias).any relalgFromSQLAstRoot.isNamedColumn =
      args.any relalgFromSQLAstRoot.isNamedColumn := by
  induction args with
  | nil => rfl
  | cons a rest ih => simp [List.any_cons, isNamedColumn_clear, ih]

theorem buildProjections_map_clear (args : List SelectArg) :
    relalgFromSQLAstRoot.buildProjections (args.map clearEmptyAlias) =
      relalgFromSQLAstRoot.buildProjections args := by
  induction args with
  | nil => rfl
  | cons a rest ih =>
    cases a with
    | column n r al =>
      cases al with
      | none => simp [relalgFromSQLAstRoot.buildProjections, clearEmptyAlias, ih]
      | some s =>
        by_cases hs : s = "" <;>
          simp [relalgFromSQLAstRoot.buildProjections, clearEmptyAlias, hs, ih]
    | aggFunction d => simp [relalgFromSQLAstRoot.buildProjections, clearEmptyAlias, ih]
    | namedColumnExpr n r c => simp [relalgFromSQLAstRoot.buildProjections, clearEmptyAlias, ih]

theorem buildRenamings_map_clear (args : List SelectArg) :
    relalgFromSQLAstRoot.buildRenamings (args.map clearEmptyAlias) =
      relalgFromSQLAstRoot.buildRenamings args := by
  induction args with
  | nil => rfl
  | cons a rest ih =>
    cases a with
    | column n r al =>
      cases al with
      | none =>
        simp [relalgFromSQLAstRoot.buildRenamings, clearEmptyAlias, List.filterMap_cons,
          relalgFromSQLAstRoot.isNamedColumn] at ih ⊢
        exact ih
      | some s =>
        by_cases hs : s = "" <;>
          · simp [relalgFromSQLAstRoot.buildRenamings, clearEmptyAlias, List.filterMap_cons,
              relalgFromSQLAstRoot.isNamedColumn, hs] at ih ⊢
            exact ih
    | aggFunction d =>
      simp [relalgFromSQLAstRoot.buildRenamings, clearEmptyAlias, List.filterMap_cons,
        relalgFromSQLAstRoot.isNamedColumn] at ih ⊢
      exact ih
    | namedColumnExpr n r c =>
      simp [relalgFromSQLAstRoot.buildRenamings, clearEmptyAlias, List.filterMap_cons,
        relalgFromSQLAstRoot.isNamedColumn] at ih ⊢
      exact ih

/-- C8: a column entry aliased by the empty string is not treated as
aliased — the truthy alias test rejects it, and the whole SELECT
finalization behaves exactly as if the entry carried no alias: no
`RenameColumns` trigger and no registered renaming. -/
theorem C8_empty_alias_not_aliased (root : RANode) (select : SelectClause) :
    (∀ name relAlias,
      relalgFromSQLAstRoot.isNamedColumn (.column name relAlias (some "")) = false) ∧
    relalgFromSQLAstRoot.selectStages root
        ⟨select.distinct, select.arg.map clearEmptyAlias, select.codeInfo⟩ =
      relalgFromSQLAstRoot.selectStages root select := by
  refine ⟨fun name relAlias => by simp [relalgFromSQLAstRoot.isNamedColumn], ?_⟩
  unfold relalgFromSQLAstRoot.selectStages relalgFromSQLAstRoot.projectionStage
  simp only [isBareWildcard_map_clear]
  cases hb : relalgFromSQLAstRoot.isBareWildcard select.arg with
  | true => simp [Bind.bind, Except.bind, relalgFromSQLAstRoot.renameStage]
  | false =>
    simp only [Bool.false_eq_true, if_false, buildProjections_map_clear,
      any_isNamedColumn_map_clear]
    cases hcols : relalgFromSQLAstRoot.buildProjections select.arg with
    | error e => rfl
    | ok cols =>
      simp only [Bind.bind, Except.bind]
      cases hsc : relalgFromSQLAstRoot.setCodeInfoFromNode
          (.mk {} (.projection root cols)) select.codeInfo with
      | error e => rfl
      | ok node =>
        simp only [relalgFromSQLAstRoot.renameStage, buildRenamings_map_clear,
          any_isNamedColumn_map_clear]

/-- A node carries the missing-DISTINCT advisory. -/
def hasDistinctWarning (n : RANode) : Prop :=
  ∃ ci, (distinctWarning, ci) ∈ n.info.warnings

/-- Warnings carried by a non-statement `recSwitch` result are only the
ignored-ALL advisory of the set-operator cases. -/
theorem recSwitch_warnings_ignoredAll (cat : Catalog) (n : SqlAstNode) (node : RANode)
    (hn : ∀ s, n ≠ .statement s) (h : relalgFromSQLAstRoot.recSwitch cat n = .ok node) :
    ∀ w ∈ node.info.warnings, w.1 = ignoredAllWarning := by
  cases n with
  | statement s => exact absurd rfl (hn s)
  | relation name relAlias md =>
    unfold relalgFromSQLAstRoot.recSwitch at h
    cases hidx : jsIndexCatalog cat name with
    | none => simp [hidx] at h
    | some d =>
      simp only [hidx] at h
      cases relAlias with
      | none =>
        cases h
        simp [copyRelation]
      | some a =>
        cases h
        simp
  | renameRelation child newRelAlias md =>
    unfold relalgFromSQLAstRoot.recSwitch at h
    rw [except_bind_ok] at h
    obtain ⟨c, -, h⟩ := h
    cases h
    simp
  | relationFromSubstatement sub relAlias md =>
    unfold relalgFromSQLAstRoot.recSwitch at h
    rw [except_bind_ok] at h
    obtain ⟨c, -, h⟩ := h
    cases h
    simp
  | innerJoin child child2 cond md =>
    unfold relalgFromSQLAstRoot.recSwitch at h
    rw [except_bind_ok] at h
    obtain ⟨c, -, h⟩ := h
    rw [except_bind_ok] at h
    obtain ⟨c1, -, h⟩ := h
    rw [except_bind_ok] at h
    obtain ⟨c2, -, h⟩ := h
    cases h
    simp
  | leftOuterJoin child child2 cond md =>
    unfold relalgFromSQLAstRoot.recSwitch at h
    rw [except_bind_ok] at h
    obtain ⟨c, -, h⟩ := h
    rw [except_bind_ok] at h
    obtain ⟨c1, -, h⟩ := h
    rw [except_bind_ok] at h
    obtain ⟨c2, -, h⟩ := h
    cases h
    simp
  | rightOuterJoin child child2 cond md =>
    unfold relalgFromSQLAstRoot.recSwitch at h
    rw [except_bind_ok] at h
    obtain ⟨c, -, h⟩ := h
    rw [except_bind_ok] at h
    obtain ⟨c1, -, h⟩ := h
    rw [except_bind_ok] at h
    obtain ⟨c2, -, h⟩ := h
    cases h
    simp
  | fullOuterJoin child child2 cond md =>
    unfold relalgFromSQLAstRoot.recSwitch at h
    rw [except_bind_ok] at h
    obtain ⟨c, -, h⟩ := h
    rw [except_bind_ok] at h
    obtain ⟨c1, -, h⟩ := h
    rw [except_bind_ok] at h
    obtain ⟨c2, -, h⟩ := h
    cases h
    simp
  | crossJoin child child2 md =>
    unfold relalgFromSQLAstRoot.recSwitch at h
    rw [except_bind_ok] at h
    obtain ⟨c1, -, h⟩ := h
    rw [except_bind_ok] at h
    obtain ⟨c2, -, h⟩ := h
    cases h
    simp
  | naturalJoin child child2 md =>
    unfold relalgFromSQLAstRoot.recSwitch at h
    rw [except_bind_ok] at h
    obtain ⟨c1, -, h⟩ := h
    rw [except_bind_ok] at h
    obtain ⟨c2, -, h⟩ := h
    cases h
    simp
  | union child child2 all md =>
    unfold relalgFromSQLAstRoot.recSwitch at h
    rw [except_bind_ok] at h
    obtain ⟨c1, -, h⟩ := h
    rw [except_bind_ok] at h
    obtain ⟨c2, -, h⟩ := h
    cases all with
    | true =>
      simp only [if_pos] at h
      cases h
      intro w hw
      simp at hw
      rw [hw]
    | false =>
      simp only [Bool.false_eq_true, if_false] at h
      cases h
      simp
  | intersect child child2 all md =>
    unfold relalgFromSQLAstRoot.recSwitch at h
    rw [except_bind_ok] at h
    obtain ⟨c1, -, h⟩ := h
    rw [except_bind_ok] at h
    obtain ⟨c2, -, h⟩ := h
    cases all with
    | true =>
      simp only [if_pos] at h
      cases h
      intro w hw
      simp at hw
      rw [hw]
    | false =>
      simp only [Bool.false_eq_true, if_false] at h
      cases h
      simp
  | exceptOp child child2 all md =>
    unfold relalgFromSQLAstRoot.recSwitch at h
    rw [except_bind_ok] at h
    obtain ⟨c1, -, h⟩ := h
    rw [except_bind_ok] at h
    obtain ⟨c2, -, h⟩ := h
    cases all with
    | true =>
      simp only [if_pos] at h
      cases h
      intro w hw
      simp at hw
      rw [hw]
    | false =>
      simp only [Bool.false_eq_true, if_false] at h
      cases h
      simp
  | orderBy child orderings md =>
    unfold relalgFromSQLAstRoot.recSwitch at h
    rw [except_bind_ok] at h
    obtain ⟨c, -, h⟩ := h
    cases h
    simp
  | limit lim off child md =>
    unfold relalgFromSQLAstRoot.recSwitch at h
    by_cases hlim : lim = -1
    · simp only [hlim, if_pos] at h
      rw [except_bind_ok] at h
      obtain ⟨c, -, h⟩ := h
      cases h
      simp
    · rw [if_neg hlim] at h
      rw [except_bind_ok] at h
      obtain ⟨c, -, h⟩ := h
      cases h
      simp

theorem warnings_transfer {a b : RANode}
    (hd : b.info.warnings = a.info.warnings ∨ b.info.warnings = [])
    (qa : ∀ w ∈ a.info.warnings, w.1 = ignoredAllWarning) :
    ∀ w ∈ b.info.warnings, w.1 = ignoredAllWarning := by
  intro w hw
  cases hd with
  | inl he => exact qa w (he ▸ hw)
  | inr he => rw [he] at hw; cases hw

theorem clauseSelection_warnings (root : RANode) (cl : Option SqlClause) (r : RANode)
    (h : relalgFromSQLAstRoot.clauseSelection root cl = .ok r) :
    r.info.warnings = root.info.warnings ∨ r.info.warnings = [] := by
  cases cl with
  | none => cases h; exact Or.inl rfl
  | some c =>
    unfold relalgFromSQLAstRoot.clauseSelection relalgFromSQLAstRoot.getSelection at h
    rw [except_bind_ok] at h
    obtain ⟨root1, h1, h2⟩ := h
    rw [except_bind_ok] at h1
    obtain ⟨v, -, h1⟩ := h1
    cases h1
    rw [relalgFromSQLAstRoot.setCodeInfoFromNode_ok] at h2
    obtain ⟨c2, -, hr⟩ := h2
    subst hr
    simp

theorem groupByStage_warnings (root : RANode) (gb : Option (List ColumnPair))
    (na : Nat) (args : List SelectArg) :
    (relalgFromSQLAstRoot.groupByStage root gb na args).info.warnings = root.info.warnings ∨
      (relalgFromSQLAstRoot.groupByStage root gb na args).info.warnings = [] := by
  unfold relalgFromSQLAstRoot.groupByStage
  split
  · refine Or.inr ?_
    dsimp only
    split <;> rfl
  · exact Or.inl rfl

theorem selectStages_warnings (root : RANode) (select : SelectClause) (r : RANode)
    (h : relalgFromSQLAstRoot.selectStages root select = .ok r) :
    r.info.warnings = root.info.warnings ∨ r.info.warnings = [] := by
  cases hb : relalgFromSQLAstRoot.isBareWildcard select.arg with
  | true =>
    rw [selectStages_bare root select hb] at h
    rw [← Except.ok.inj h]
    exact Or.inl rfl
  | false =>
    rw [selectStages_not_bare hb] at h
    obtain ⟨cols, c, -, -, hr⟩ := h
    subst hr
    unfold relalgFromSQLAstRoot.renameStage
    cases select.arg.any relalgFromSQLAstRoot.isNamedColumn with
    | true => exact Or.inr (by simp)
    | false => exact Or.inr (by simp)

theorem parseStatement_warnings (cat : Catalog) (stmt : SqlStatement) (r : RANode)
    (hfrom : ∀ s, stmt.fromClause ≠ .statement s)
    (h : relalgFromSQLAstRoot.parseStatement cat stmt = .ok r) :
    ∀ w ∈ r.info.warnings, w.1 = ignoredAllWarning := by
  obtain ⟨select, fromC, whereC, gb, hav, na, ci, wr, md⟩ := stmt
  simp only [SqlStatement.fromClause] at hfrom
  unfold relalgFromSQLAstRoot.parseStatement at h
  rw [except_bind_ok] at h
  obtain ⟨r0, h0, h⟩ := h
  rw [except_bind_ok] at h
  obtain ⟨r1, h1, h⟩ := h
  rw [except_bind_ok] at h
  obtain ⟨r2, h2, h⟩ := h
  rw [except_bind_ok] at h
  obtain ⟨r4, h4, h5⟩ := h
  have q0 : ∀ w ∈ r0.info.warnings, w.1 = ignoredAllWarning := by
    rw [relalgFromSQLAstRoot.rec_ok_iff] at h0
    obtain ⟨node, hsw, c0, hci0, hr0⟩ := h0
    subst hr0
    intro w hw
    simp at hw
    exact recSwitch_warnings_ignoredAll cat fromC node hfrom hsw w hw
  have q1 : ∀ w ∈ r1.info.warnings, w.1 = ignoredAllWarning := by
    rw [relalgFromSQLAstRoot.setCodeInfoFromNode_ok] at h1
    obtain ⟨c1, -, hr1⟩ := h1
    subst hr1
    intro w hw
    simp at hw
    exact q0 w hw
  have q2 := warnings_transfer (clauseSelection_warnings r1 whereC r2 h2) q1
  have q3 := warnings_transfer
    (groupByStage_warnings r2 gb na select.arg) q2
  have q4 := warnings_transfer (clauseSelection_warnings _ hav r4 h4) q3
  exact warnings_transfer (selectStages_warnings r4 select r h5) q4

theorem rec_statement_adds_warning (cat : Catalog) (stmt : SqlStatement) (r : RANode)
    (h : relalgFromSQLAstRoot.rec cat (.statement stmt) = .ok r)
    (hd : stmt.select.distinct = false) :
    (distinctWarning, stmt.codeInfo) ∈ r.info.warnings := by
  rw [relalgFromSQLAstRoot.rec_ok_iff] at h
  obtain ⟨node, hsw, c0, hci, hr⟩ := h
  subst hr
  unfold relalgFromSQLAstRoot.recSwitch at hsw
  rw [except_bind_ok] at hsw
  obtain ⟨ps, hps, hsw⟩ := hsw
  rw [hd] at hsw
  simp only [if_pos] at hsw
  rw [Except.ok.injEq] at hsw
  subst hsw
  simp

theorem rec_statement_true_no_warning (cat : Catalog) (stmt : SqlStatement) (r : RANode)
    (hfrom : ∀ s, stmt.fromClause ≠ .statement s)
    (h : relalgFromSQLAstRoot.rec cat (.statement stmt) = .ok r)
    (hd : stmt.select.distinct = true) :
    ¬hasDistinctWarning r := by
  rw [relalgFromSQLAstRoot.rec_ok_iff] at h
  obtain ⟨node, hsw, c0, hci, hr⟩ := h
  subst hr
  unfold relalgFromSQLAstRoot.recSwitch at hsw
  rw [except_bind_ok] at hsw
  obtain ⟨ps, hps, hsw⟩ := hsw
  rw [hd] at hsw
  simp only [Bool.true_eq_false, if_false] at hsw
  rw [Except.ok.injEq] at hsw
  subst hsw
  rintro ⟨ci, hmem⟩
  simp only [RANode.info_setCodeInfoObject, RANode.warnings_wrapIf] at hmem
  have := parseStatement_warnings cat stmt ps hfrom hps (distinctWarning, ci) hmem
  simp [distinctWarning, ignoredAllWarning, i18nT] at this

/-- C9: the missing-DISTINCT advisory is attached to every translated
statement node whose select clause has `distinct = false`, including a
sub-statement nested inside a `relationFromSubstatement` wrapper (it sits
on the child of the produced `RenameRelation`); a statement with
`distinct = true` receives no such warning. -/
theorem C9_distinct_warning (cat : Catalog) (stmt : SqlStatement) (relAlias : String)
    (md : SqlNodeMeta) :
    (∀ r, relalgFromSQLAstRoot.rec cat (.statement stmt) = .ok r →
      stmt.select.distinct = false →
      (distinctWarning, stmt.codeInfo) ∈ r.info.warnings) ∧
    (∀ r, relalgFromSQLAstRoot.rec cat
        (.relationFromSubstatement (.statement stmt) relAlias md) = .ok r →
      ∃ child, r.op = .renameRelation child relAlias ∧
        (stmt.select.distinct = false →
          (distinctWarning, stmt.codeInfo) ∈ child.info.warnings)) ∧
    (∀ r, (∀ s, stmt.fromClause ≠ .statement s) →
      relalgFromSQLAstRoot.rec cat (.statement stmt) = .ok r →
      stmt.select.distinct = true → ¬hasDistinctWarning r) := by
  refine ⟨fun r h hd => rec_statement_adds_warning cat stmt r h hd, ?_,
    fun r hfrom h hd => rec_statement_true_no_warning cat stmt r hfrom h hd⟩
  intro r h
  rw [relalgFromSQLAstRoot.rec_ok_iff] at h
  obtain ⟨node, hsw, c0, hci, hr⟩ := h
  subst hr
  unfold relalgFromSQLAstRoot.recSwitch at hsw
  rw [except_bind_ok] at hsw
  obtain ⟨rel, hrel, hsw⟩ := hsw
  rw [Except.ok.injEq] at hsw
  subst hsw
  refine ⟨rel, by simp, fun hd => rec_statement_adds_warning cat stmt rel hrel hd⟩

theorem C9_distinct_warning_witness :
    (distinctWarning, (some ({} : CodeInfo) : Option CodeInfo)) ∈
      (RANode.mk {codeInfo := some {}, warnings := [(distinctWarning, some {})]}
        (.projection (.mk {codeInfo := some {}} (.relation {name := "R"}))
          [.col ⟨"a", none⟩])).info.warnings ∧
    (∃ child,
      (RANode.mk {codeInfo := some {}}
        (.renameRelation
          (.mk {codeInfo := some {}, warnings := [(distinctWarning, some {})]}
            (.projection (.mk {codeInfo := some {}} (.relation {name := "R"}))
              [.col ⟨"a", none⟩])) "S")).op = .renameRelation child "S" ∧
      (false = false →
        (distinctWarning, (some ({} : CodeInfo) : Option CodeInfo)) ∈ child.info.warnings)) ∧
    ¬hasDistinctWarning (.mk {codeInfo := some {}}
      (.projection (.mk {codeInfo := some {}} (.relation {name := "R"})) [.col ⟨"a", none⟩])) := by
  refine ⟨?_, ?_, ?_⟩
  · exact (C9_distinct_warning [("R", some {name := "R"})]
      (.mk ⟨false, [.column "a" none none], some {}⟩
        (.relation "R" none {codeInfo := some {}}) none none none 0 (some {}) false none)
      "S" {codeInfo := some {}}).1 _
      (by simp [relalgFromSQLAstRoot.rec, relalgFromSQLAstRoot.recSwitch,
        relalgFromSQLAstRoot.parseStatement, relalgFromSQLAstRoot.selectStages,
        relalgFromSQLAstRoot.projectionStage, relalgFromSQLAstRoot.isBareWildcard,
        relalgFromSQLAstRoot.buildProjections, relalgFromSQLAstRoot.isNamedColumn,
        relalgFromSQLAstRoot.renameStage, relalgFromSQLAstRoot.clauseSelection,
        relalgFromSQLAstRoot.groupByStage, relalgFromSQLAstRoot.setCodeInfoFromNode,
        jsIndexCatalog, jsLookup, copyRelation, SqlAstNode.codeInfo, SqlAstNode.meta,
        SqlAstNode.wrappedInParentheses, SqlStatement.select, SqlStatement.fromClause,
        SqlStatement.whereClause, SqlStatement.groupBy, SqlStatement.having,
        SqlStatement.numAggregationColumns, SqlStatement.codeInfo,
        SqlStatement.wrappedInParentheses, SqlStatement.metaData,
        RANode.setCodeInfoObject, RANode.addWarning, Bind.bind, Except.bind]) rfl
  · exact (C9_distinct_warning [("R", some {name := "R"})]
      (.mk ⟨false, [.column "a" none none], some {}⟩
        (.relation "R" none {codeInfo := some {}}) none none none 0 (some {}) false none)
      "S" {codeInfo := some {}}).2.1 _
      (by simp [relalgFromSQLAstRoot.rec, relalgFromSQLAstRoot.recSwitch,
        relalgFromSQLAstRoot.parseStatement, relalgFromSQLAstRoot.selectStages,
        relalgFromSQLAstRoot.projectionStage, relalgFromSQLAstRoot.isBareWildcard,
        relalgFromSQLAstRoot.buildProjections, relalgFromSQLAstRoot.isNamedColumn,
        relalgFromSQLAstRoot.renameStage, relalgFromSQLAstRoot.clauseSelection,
        relalgFromSQLAstRoot.groupByStage, relalgFromSQLAstRoot.setCodeInfoFromNode,
        jsIndexCatalog, jsLookup, copyRelation, SqlAstNode.codeInfo, SqlAstNode.meta,
        SqlAstNode.wrappedInParentheses, SqlStatement.select, SqlStatement.fromClause,
        SqlStatement.whereClause, SqlStatement.groupBy, SqlStatement.having,
        SqlStatement.numAggregationColumns, SqlStatement.codeInfo,
        SqlStatement.wrappedInParentheses, SqlStatement.metaData,
        RANode.setCodeInfoObject, RANode.addWarning, Bind.bind, Except.bind])
  · exact (C9_distinct_warning [("R", some {name := "R"})]
      (.mk ⟨true, [.column "a" none none], some {}⟩
        (.relation "R" none {codeInfo := some {}}) none none none 0 (some {}) false none)
      "S" {codeInfo := some {}}).2.2 _
      (fun s => by simp [SqlStatement.fromClause])
      (by simp [relalgFromSQLAstRoot.rec, relalgFromSQLAstRoot.recSwitch,
        relalgFromSQLAstRoot.parseStatement, relalgFromSQLAstRoot.selectStages,
        relalgFromSQLAstRoot.projectionStage, relalgFromSQLAstRoot.isBareWildcard,
        relalgFromSQLAstRoot.buildProjections, relalgFromSQLAstRoot.isNamedColumn,
        relalgFromSQLAstRoot.renameStage, relalgFromSQLAstRoot.clauseSelection,
        relalgFromSQLAstRoot.groupByStage, relalgFromSQLAstRoot.setCodeInfoFromNode,
        jsIndexCatalog, jsLookup, copyRelation, SqlAstNode.codeInfo, SqlAstNode.meta,
        SqlAstNode.wrappedInParentheses, SqlStatement.select, SqlStatement.fromClause,
        SqlStatement.whereClause, SqlStatement.groupBy, SqlStatement.having,
        SqlStatement.numAggregationColumns, SqlStatement.codeInfo,
        SqlStatement.wrappedInParentheses, SqlStatement.metaData,
        RANode.setCodeInfoObject, RANode.addWarning, Bind.bind, Except.bind]) rfl

theorem lookupMeta_nil (k : String) : lookupMeta [] k = none := rfl

theorem lookupMeta_cons (a : String) (b : MetaVal) (t : List (String × MetaVal)) (k : String) :
    lookupMeta ((a, b) :: t) k = if a = k then some b else lookupMeta t k := by
  by_cases h : a = k <;> simp [lookupMeta, List.find?, h]

theorem lookupMeta_map_replace (k : String) (v : MetaVal) (m : List (String × MetaVal))
    (h : m.any (fun p => p.1 = k) = true) :
    lookupMeta (m.map (fun p => if p.1 = k then (k, v) else p)) k = some v := by
  induction m with
  | nil => simp at h
  | cons p t ih =>
    obtain ⟨a, b⟩ := p
    by_cases hp : a = k
    · subst hp
      simp [List.map_cons, lookupMeta_cons]
    · rw [List.map_cons, if_neg (by simpa using hp), lookupMeta_cons, if_neg hp]
      apply ih
      simp only [List.any_cons, Bool.or_eq_true, decide_eq_true_eq] at h
      rcases h with h | h
      · exact absurd h hp
      · simpa using h

theorem lookupMeta_map_replace_ne (k : String) (v : MetaVal) (k' : String) (hne : k' ≠ k)
    (m : List (String × MetaVal)) :
    lookupMeta (m.map (fun p => if p.1 = k then (k, v) else p)) k' = lookupMeta m k' := by
  induction m with
  | nil => rfl
  | cons p t ih =>
    obtain ⟨a, b⟩ := p
    by_cases hp : a = k
    · subst hp
      rw [List.map_cons, if_pos rfl, lookupMeta_cons, lookupMeta_cons,
        if_neg (fun he => hne he.symm), if_neg (fun he => hne he.symm)]
      exact ih
    · rw [List.map_cons, if_neg (by simpa using hp), lookupMeta_cons, lookupMeta_cons]
      by_cases ha : a = k'
      · rw [if_pos ha, if_pos ha]
      · rw [if_neg ha, if_neg ha]
        exact ih

theorem lookupMeta_append_single (m : List (String × MetaVal)) (k : String) (v : MetaVal)
    (hall : ∀ p ∈ m, p.1 ≠ k) :
    lookupMeta (m ++ [(k, v)]) k = some v := by
  induction m with
  | nil => simp [lookupMeta_cons]
  | cons p t ih =>
    obtain ⟨a, b⟩ := p
    have ha : a ≠ k := hall (a, b) (by simp)
    rw [List.cons_append, lookupMeta_cons, if_neg ha]
    exact ih fun q hq => hall q (List.mem_cons_of_mem _ hq)

theorem lookupMeta_append_single_ne (m : List (String × MetaVal)) (k : String) (v : MetaVal)
    (k' : String) (hne : k' ≠ k) :
    lookupMeta (m ++ [(k, v)]) k' = lookupMeta m k' := by
  induction m with
  | nil =>
    rw [List.nil_append, lookupMeta_cons, if_neg fun he => hne he.symm]
  | cons p t ih =>
    obtain ⟨a, b⟩ := p
    rw [List.cons_append, lookupMeta_cons, lookupMeta_cons]
    by_cases ha : a = k'
    · rw [if_pos ha, if_pos ha]
    · rw [if_neg ha, if_neg ha]
      exact ih

theorem lookupMeta_setMetaEntry_self (m : List (String × MetaVal)) (k : String) (v : MetaVal) :
    lookupMeta (setMetaEntry m k v) k = some v := by
  unfold setMetaEntry
  by_cases hany : m.any (fun p => p.1 = k) = true
  · rw [if_pos hany]
    exact lookupMeta_map_replace k v m hany
  · rw [if_neg hany]
    refine lookupMeta_append_single m k v fun p hp he => hany ?_
    simp only [List.any_eq_true, decide_eq_true_eq]
    exact ⟨p, hp, he⟩

theorem lookupMeta_setMetaEntry_ne (m : List (String × MetaVal)) (k : String) (v : MetaVal)
    (k' : String) (hne : k' ≠ k) :
    lookupMeta (setMetaEntry m k v) k' = lookupMeta m k' := by
  unfold setMetaEntry
  by_cases hany : m.any (fun p => p.1 = k) = true
  · rw [if_pos hany]
    exact lookupMeta_map_replace_ne k v k' hne m
  · rw [if_neg hany]
    exact lookupMeta_append_single_ne m k v k' hne

theorem info_metaData_foldSetMeta (entries : List (String × MetaVal)) (node : RANode) :
    (entries.foldl (fun nd kv => nd.setMetaData kv.1 kv.2) node).info.metaData =
      entries.foldl (fun m kv => setMetaEntry m kv.1 kv.2) node.info.metaData := by
  induction entries generalizing node with
  | nil => rfl
  | cons kv t ih =>
    rw [List.foldl_cons, List.foldl_cons, ih]
    simp

theorem info_codeInfo_foldSetMeta (entries : List (String × MetaVal)) (node : RANode) :
    (entries.foldl (fun nd kv => nd.setMetaData kv.1 kv.2) node).info.codeInfo =
      node.info.codeInfo := by
  induction entries generalizing node with
  | nil => rfl
  | cons kv t ih =>
    rw [List.foldl_cons, ih]
    simp

theorem lookupMeta_fold_not_mem (k : String) (t : List (String × MetaVal))
    (init : List (String × MetaVal)) (h : ∀ kv ∈ t, kv.1 ≠ k) :
    lookupMeta (t.foldl (fun m kv => setMetaEntry m kv.1 kv.2) init) k = lookupMeta init k := by
  induction t generalizing init with
  | nil => rfl
  | cons kv t ih =>
    rw [List.foldl_cons, ih _ fun q hq => h q (List.mem_cons_of_mem _ hq)]
    exact lookupMeta_setMetaEntry_ne init kv.1 kv.2 k fun he => h kv (by simp) he.symm

theorem lookupMeta_fold_entries (entries : List (String × MetaVal))
    (init : List (String × MetaVal)) (k : String) (v : MetaVal)
    (hnodup : (entries.map Prod.fst).Nodup) (hmem : (k, v) ∈ entries) :
    lookupMeta (entries.foldl (fun m kv => setMetaEntry m kv.1 kv.2) init) k = some v := by
  induction entries generalizing init with
  | nil => cases hmem
  | cons kv t ih =>
    rw [List.map_cons, List.nodup_cons] at hnodup
    obtain ⟨hk, hnd⟩ := hnodup
    rw [List.foldl_cons]
    rcases List.mem_cons.mp hmem with heq | hmemt
    · have hknott : ∀ q ∈ t, q.1 ≠ k := by
        intro q hq he
        apply hk
        rw [← heq]
        exact List.mem_map.mpr ⟨q, hq, he⟩
      rw [lookupMeta_fold_not_mem k t _ hknott, ← heq]
      exact lookupMeta_setMetaEntry_self init k v
    · exact ih _ hnd hmemt

@[simp] theorem RANode.codeInfo_wrapIf (b : Bool) (node : RANode) :
    (if b = true then node.setWrappedInParentheses true else node).info.codeInfo =
      node.info.codeInfo := by
  cases b <;> simp

theorem setAdditionalData_codeInfo (md : RaNodeMeta) (node : RANode) :
    (setAdditionalData md node).info.codeInfo = some md.codeInfo := by
  unfold setAdditionalData
  cases hm : md.metaData with
  | none => simp
  | some entries => simp [info_codeInfo_foldSetMeta]

theorem setAdditionalData_metaData_lookup (md : RaNodeMeta) (node : RANode)
    (entries : List (String × MetaVal)) (k : String) (v : MetaVal)
    (hmd : md.metaData = some entries) (hnodup : (entries.map Prod.fst).Nodup)
    (hmem : (k, v) ∈ entries) :
    lookupMeta (setAdditionalData md node).info.metaData k = some v := by
  unfold setAdditionalData
  rw [hmd]
  simp only [RANode.metaData_wrapIf]
  rw [info_metaData_foldSetMeta]
  exact lookupMeta_fold_entries entries _ k v hnodup hmem

/-- Every successful `recRANode` result is its case's node passed through
the shared `setAdditionalData` annotate step with the AST node's own
header. -/
theorem recRANode_shape (cat : Catalog) (n : RelalgAstNode) (r : RANode)
    (h : recRANode cat n = .ok r) : ∃ x, r = setAdditionalData n.meta x := by
  cases n
  case relation name md =>
    simp only [recRANode] at h
    cases hidx : jsIndexCatalog cat name with
    | none => rw [hidx] at h; cases h
    | some d =>
      rw [hidx] at h
      rw [Except.ok.injEq] at h
      exact ⟨_, h.symm⟩
  case table name columns rows md =>
    simp only [recRANode] at h
    rw [Except.ok.injEq] at h
    exact ⟨_, h.symm⟩
  all_goals
    simp only [recRANode] at h
    repeat (rw [except_bind_ok] at h; obtain ⟨_, -, h⟩ := h)
    rw [Except.ok.injEq] at h
    exact ⟨_, h.symm⟩

/-- C6 (amended): every node returned by the SQL translator's `rec` and
every node returned by the RA translator carries a non-null source
position (the RA one exactly its AST node's position), but the node newly
built by the SQL group-by stage — the `GroupBy` or the fallback
`Projection` — is handed to the rest of the pipeline with no source
position. -/
theorem C6_positions (cat : Catalog) (n : SqlAstNode) (m : RelalgAstNode)
    (root : RANode) (gb : Option (List ColumnPair)) (na : Nat) (args : List SelectArg) :
    (∀ r, relalgFromSQLAstRoot.rec cat n = .ok r → (r.info.codeInfo).isSome = true) ∧
    (∀ r, recRANode cat m = .ok r → r.info.codeInfo = some m.meta.codeInfo) ∧
    (gb.isSome = true ∨ 0 < na →
      (relalgFromSQLAstRoot.groupByStage root gb na args).info.codeInfo = none) := by
  refine ⟨?_, ?_, ?_⟩
  · intro r h
    rw [relalgFromSQLAstRoot.rec_ok_iff] at h
    obtain ⟨node, -, c, -, hr⟩ := h
    subst hr
    simp
  · intro r h
    obtain ⟨x, hx⟩ := recRANode_shape cat m r h
    subst hx
    exact setAdditionalData_codeInfo m.meta x
  · intro hcond
    have hc : (gb.isSome || decide (0 < na)) = true := by
      rcases hcond with h | h <;> simp [h]
    unfold relalgFromSQLAstRoot.groupByStage
    rw [if_pos hc]
    dsimp only
    split <;> rfl

/-- Counterexample for C6 as frozen: translating `SELECT COUNT(a) FROM R`
(one aggregate entry, no GROUP BY clause) succeeds, and the `GroupBy`
node inside the produced tree carries no source position — the group-by
stage never annotates the layer it builds. -/
theorem C6_positions_counterexample :
    relalgFromSQLAstRoot.rec [("R", some {name := "R"})]
        (.statement (.mk ⟨true, [.aggFunction ⟨"COUNT", "count_a"⟩], some {}⟩
          (.relation "R" none {codeInfo := some {}}) none none none 1 (some {}) false none)) =
      .ok (.mk {codeInfo := some {}}
        (.projection
          (.mk {} (.groupBy (.mk {codeInfo := some {}} (.relation {name := "R"}))
            [] [⟨"COUNT", "count_a"⟩]))
          [.col ⟨"count_a", none⟩])) ∧
    (RANode.mk {} (.groupBy (.mk {codeInfo := some {}} (.relation {name := "R"}))
      [] [⟨"COUNT", "count_a"⟩])).info.codeInfo = none := by
  refine ⟨?_, rfl⟩
  simp [relalgFromSQLAstRoot.rec, relalgFromSQLAstRoot.recSwitch,
    relalgFromSQLAstRoot.parseStatement, relalgFromSQLAstRoot.selectStages,
    relalgFromSQLAstRoot.projectionStage, relalgFromSQLAstRoot.isBareWildcard,
    relalgFromSQLAstRoot.buildProjections, relalgFromSQLAstRoot.isNamedColumn,
    relalgFromSQLAstRoot.renameStage, relalgFromSQLAstRoot.clauseSelection,
    relalgFromSQLAstRoot.groupByStage, relalgFromSQLAstRoot.aggFunctionsOf,
    relalgFromSQLAstRoot.setCodeInfoFromNode,
    jsIndexCatalog, jsLookup, copyRelation, SqlAstNode.codeInfo, SqlAstNode.meta,
    SqlAstNode.wrappedInParentheses, SqlStatement.select, SqlStatement.fromClause,
    SqlStatement.whereClause, SqlStatement.groupBy, SqlStatement.having,
    SqlStatement.numAggregationColumns, SqlStatement.codeInfo,
    SqlStatement.wrappedInParentheses, SqlStatement.metaData,
    RANode.setCodeInfoObject, RANode.addWarning, Bind.bind, Except.bind]

theorem C6_positions_witness :
    (((RANode.mk {codeInfo := some {}} (.relation {name := "R"})).info.codeInfo).isSome = true) ∧
    ((RANode.mk {codeInfo := some {}} (.relation {name := "R"})).info.codeInfo =
      some (RelalgAstNode.relation "R" {codeInfo := {}}).meta.codeInfo) ∧
    (relalgFromSQLAstRoot.groupByStage (.mk {} (.relation {name := "R"}))
      (some [⟨"c", none⟩]) 0 []).info.codeInfo = none := by
  refine ⟨?_, ?_, ?_⟩
  · exact (C6_positions [("R", some {name := "R"})] (.relation "R" none {codeInfo := some {}})
      (.relation "R" {codeInfo := {}}) (.mk {} (.relation {name := "R"}))
      (some [⟨"c", none⟩]) 0 []).1 _
      (by simp [relalgFromSQLAstRoot.rec, relalgFromSQLAstRoot.recSwitch, jsIndexCatalog,
        jsLookup, copyRelation, relalgFromSQLAstRoot.setCodeInfoFromNode, SqlAstNode.codeInfo,
        SqlAstNode.meta, SqlAstNode.wrappedInParentheses, RANode.setCodeInfoObject,
        Bind.bind, Except.bind])
  · exact (C6_positions [("R", some {name := "R"})] (.relation "R" none {codeInfo := some {}})
      (.relation "R" {codeInfo := {}}) (.mk {} (.relation {name := "R"}))
      (some [⟨"c", none⟩]) 0 []).2.1 _ rfl
  · exact (C6_positions [("R", some {name := "R"})] (.relation "R" none {codeInfo := some {}})
      (.relation "R" {codeInfo := {}}) (.mk {} (.relation {name := "R"}))
      (some [⟨"c", none⟩]) 0 []).2.2 (Or.inl rfl)

/-- C7 (amended): the RA-syntax translator copies every declared
metadata entry verbatim onto the produced tree node through
`setAdditionalData`; the SQL-syntax translator copies no metadata — its
shared tail transfers only the source position and the parenthesization
flag, so a SQL relation reference's declared metadata mapping is
dropped. -/
theorem C7_metadata_copy (cat : Catalog) (m : RelalgAstNode) (name : String)
    (relAlias : Option String) (md : SqlNodeMeta) :
    (∀ r entries, recRANode cat m = .ok r → m.meta.metaData = some entries →
      (entries.map Prod.fst).Nodup →
      ∀ k v, (k, v) ∈ entries → lookupMeta r.info.metaData k = some v) ∧
    (∀ r, relalgFromSQLAstRoot.rec cat (.relation name relAlias md) = .ok r →
      r.info.metaData = []) := by
  constructor
  · intro r entries h hmd hnodup k v hmem
    obtain ⟨x, hx⟩ := recRANode_shape cat m r h
    subst hx
    exact setAdditionalData_metaData_lookup m.meta x entries k v hmd hnodup hmem
  · intro r h
    rw [relalgFromSQLAstRoot.rec_ok_iff] at h
    obtain ⟨node, hsw, c, -, hr⟩ := h
    subst hr
    unfold relalgFromSQLAstRoot.recSwitch at hsw
    cases hidx : jsIndexCatalog cat name with
    | none => rw [hidx] at hsw; cases hsw
    | some d =>
      rw [hidx] at hsw
      cases relAlias with
      | none =>
        rw [Except.ok.injEq] at hsw
        subst hsw
        simp [copyRelation]
      | some a =>
        rw [Except.ok.injEq] at hsw
        subst hsw
        simp

/-- Counterexample for C7 as frozen: a SQL relation-reference AST node
declaring the metadata entry `k ↦ v` translates to a node whose metadata
mapping is empty — the SQL translator drops declared metadata. -/
theorem C7_metadata_counterexample :
    (SqlAstNode.relation "R" none
        {codeInfo := some {}, metaData := some [("k", MetaVal.str "v")]}).meta.metaData =
      some [("k", MetaVal.str "v")] ∧
    relalgFromSQLAstRoot.rec [("R", some {name := "R"})]
        (.relation "R" none {codeInfo := some {}, metaData := some [("k", MetaVal.str "v")]}) =
      .ok (.mk {codeInfo := some {}} (.relation {name := "R"})) ∧
    lookupMeta (RANode.mk {codeInfo := some {}} (.relation {name := "R"})).info.metaData "k" =
      none := by
  refine ⟨rfl, ?_, rfl⟩
  simp [relalgFromSQLAstRoot.rec, relalgFromSQLAstRoot.recSwitch, jsIndexCatalog,
    jsLookup, copyRelation, relalgFromSQLAstRoot.setCodeInfoFromNode, SqlAstNode.codeInfo,
    SqlAstNode.meta, SqlAstNode.wrappedInParentheses, RANode.setCodeInfoObject,
    Bind.bind, Except.bind]

theorem C7_metadata_copy_witness :
    lookupMeta (RANode.mk {codeInfo := some {}, metaData := [("k", MetaVal.str "v")]}
      (.relation {name := "R"})).info.metaData "k" = some (MetaVal.str "v") ∧
    (RANode.mk {codeInfo := some {}} (.relation {name := "R"})).info.metaData = [] := by
  constructor
  · exact (C7_metadata_copy [("R", some {name := "R"})]
      (.relation "R" {codeInfo := {}, metaData := some [("k", MetaVal.str "v")]})
      "R" none {codeInfo := some {}}).1 _ [("k", MetaVal.str "v")] rfl rfl
      (by simp) "k" (MetaVal.str "v") (by simp)
  · exact (C7_metadata_copy [("R", some {name := "R"})]
      (.relation "R" {codeInfo := {}, metaData := some [("k", MetaVal.str "v")]})
      "R" none {codeInfo := some {}}).2 _
      (by simp [relalgFromSQLAstRoot.rec, relalgFromSQLAstRoot.recSwitch, jsIndexCatalog,
        jsLookup, copyRelation, relalgFromSQLAstRoot.setCodeInfoFromNode, SqlAstNode.codeInfo,
        SqlAstNode.meta, SqlAstNode.wrappedInParentheses, RANode.setCodeInfoObject,
        Bind.bind, Except.bind])
